import Mathlib

/-!
# Verification of the PersonalMedia media-source adapters

Shallow embedding of the update-detection, pagination and RSS-parsing logic of
the `MediaSource` contract and its three adapters (`PodcastSource`,
`YouTubeSource`, `SpotifySource`), together with proofs about the claims of
the specification.

JavaScript-level primitives that the source relies on (`parseInt`,
`Array.prototype.slice`, `String.prototype.trim`, `String.prototype.split`,
the `Number` coercion, string truthiness, `??`) are modelled explicitly below;
machine numbers are modelled as exact integers with an explicit NaN value
(`JsNum`), since the quantities involved (offsets, limits, durations) never
approach the 2^53 precision limit of JS doubles.
-/

namespace PersonalMedia

/-- Decidable equality for `Except`, so that concrete runs of the embedded
operations can be settled by `decide`. -/
instance {ε α : Type} [DecidableEq ε] [DecidableEq α] : DecidableEq (Except ε α) := fun x y =>
  match x, y with
  | .ok a, .ok b =>
    if h : a = b then .isTrue (by rw [h]) else .isFalse (fun hh => h (Except.ok.inj hh))
  | .error a, .error b =>
    if h : a = b then .isTrue (by rw [h]) else .isFalse (fun hh => h (Except.error.inj hh))
  | .ok _, .error _ => .isFalse (fun hh => Except.noConfusion hh)
  | .error _, .ok _ => .isFalse (fun hh => Except.noConfusion hh)

/-- A JavaScript number restricted to the integer values arising in the code,
plus the `NaN` value produced by failed `parseInt` / `Number` conversions.
Fractional numeric literals do not arise in any of the modelled code paths
(offsets and limits are integers, durations are integer seconds); a
non-integer-valued text is modelled as `nan`. -/
inductive JsNum where
  | nan : JsNum
  | int : Int → JsNum
deriving DecidableEq, Repr

namespace JsNum

/-- JS `+` on numbers: `NaN` is absorbing. -/
def add : JsNum → JsNum → JsNum
  | .int a, .int b => .int (a + b)
  | _, _ => .nan

/-- JS `*` on numbers: `NaN` is absorbing. -/
def mul : JsNum → JsNum → JsNum
  | .int a, .int b => .int (a * b)
  | _, _ => .nan

/-- JS `<` on numbers: any comparison with `NaN` is `false`. -/
def ltB : JsNum → JsNum → Bool
  | .int a, .int b => decide (a < b)
  | _, _ => false

end JsNum

/-- The decimal digit characters `'0'`–`'9'` (the class `\d` and the digits
accepted by `parseInt(·, 10)`). -/
def isDigitChar (c : Char) : Bool :=
  48 ≤ c.toNat && c.toNat ≤ 57

/-- The numeric value of a decimal digit character. -/
def digitVal (c : Char) : Nat :=
  c.toNat - 48

/-- Whitespace characters as skipped by JS `parseInt`, `trim` and `Number`
(space, tab, line feed, carriage return; the remaining JS WhiteSpace code
points do not occur in any input considered here). -/
def isSpaceChar (c : Char) : Bool :=
  c.toNat = 32 || c.toNat = 9 || c.toNat = 10 || c.toNat = 13

/-- The numeric value of a big-endian list of decimal digit characters. -/
def natVal (cs : List Char) : Nat :=
  cs.foldl (fun a c => 10 * a + digitVal c) 0

/-- The little-endian decimal digit characters of `n`, computed with
structural fuel so that concrete instances reduce definitionally
(`natDigitsAux fuel n` is complete whenever `n ≤ fuel`). -/
def natDigitsAux : Nat → Nat → List Char
  | 0, _ => []
  | _ + 1, 0 => []
  | fuel + 1, n + 1 => Nat.digitChar ((n + 1) % 10) :: natDigitsAux fuel ((n + 1) / 10)

/-- Decimal rendering of a natural number, as produced by JS
`String(n)` for a non-negative integer `n`. -/
def natRepr (n : Nat) : String :=
  if n = 0 then "0" else ⟨(natDigitsAux n n).reverse⟩

/-- JS `String(x)` on a number. -/
def JsNum.toStr : JsNum → String
  | .nan => "NaN"
  | .int i => if i < 0 then "-" ++ natRepr (-i).toNat else natRepr i.toNat

/-- JS `parseInt(s, 10)`: skip leading whitespace, read an optional sign and
then the longest prefix of decimal digits; `NaN` when that prefix is empty. -/
def jsParseInt (s : String) : JsNum :=
  let cs := s.data.dropWhile isSpaceChar
  let signAndRest : Bool × List Char :=
    match cs with
    | c :: rest =>
      if c = '-' then (true, rest)
      else if c = '+' then (false, rest)
      else (false, cs)
    | [] => (false, [])
  let ds := signAndRest.2.takeWhile isDigitChar
  if ds.isEmpty then JsNum.nan
  else if signAndRest.1 then JsNum.int (-(natVal ds : Int)) else JsNum.int (natVal ds)

/-- Clamp one bound of JS `Array.prototype.slice` to an index of a list of
length `len`: `NaN` becomes `0`, a negative value counts from the end, and
values are clamped into `[0, len]`. -/
def jsSliceIdx (len : Nat) : JsNum → Nat
  | .nan => 0
  | .int i => if i < 0 then ((len : Int) + i).toNat else min i.toNat len

/-- JS `l.slice(start, stop)`. -/
def jsSlice {α : Type} (l : List α) (start stop : JsNum) : List α :=
  let k := jsSliceIdx l.length start
  let fin := jsSliceIdx l.length stop
  (l.drop k).take (fin - k)

/-- JS `String.prototype.trim` at the character-list level. -/
def trimChars (cs : List Char) : List Char :=
  ((cs.dropWhile isSpaceChar).reverse.dropWhile isSpaceChar).reverse

/-- JS `s.split(sep)` for a one-character separator, at the character-list
level: `splitChars sep "a:b:" = ["a", "b", ""]`, `splitChars sep "" = [""]`. -/
def splitChars (sep : Char) : List Char → List (List Char)
  | [] => [[]]
  | c :: rest =>
    if c = sep then [] :: splitChars sep rest
    else
      match splitChars sep rest with
      | [] => [[c]]
      | p :: ps => (c :: p) :: ps

/-- The JS `Number(s)` coercion on the strings arising here: whitespace is
trimmed, the empty string is `0`, an optionally signed run of decimal digits
is its value, and anything else is `NaN` (non-integer numeric literals are
modelled as `NaN`; they occur in none of the feeds or claims considered). -/
def jsStringToNumber (cs : List Char) : JsNum :=
  let t := trimChars cs
  if t.isEmpty then .int 0
  else
    match t with
    | c :: rest =>
      if c = '-' then
        if !rest.isEmpty && rest.all isDigitChar then .int (-(natVal rest : Int)) else .nan
      else if c = '+' then
        if !rest.isEmpty && rest.all isDigitChar then .int (natVal rest) else .nan
      else if t.all isDigitChar then .int (natVal t) else .nan
    | [] => .int 0

/-! ## Data model (`src/types/media.ts`) -/

/-- `MediaSourceType` from `types/media.ts`. -/
inductive MediaSourceType where
  | spotify | youtube | podcast
deriving DecidableEq, Repr

/-- `MediaItem` from `types/media.ts`.  `duration` is a JS number (it can be
`NaN` when duration parsing misfires), the remaining optional fields can be
`undefined`. -/
structure MediaItem where
  id : String
  source : MediaSourceType
  title : String
  sourceId : String
  thumbnail : Option String
  duration : Option JsNum
  artist : Option String
  publishedAt : Option String
deriving DecidableEq, Repr

/-- `MediaCollection` from `types/media.ts`. -/
structure MediaCollection where
  id : String
  source : MediaSourceType
  title : String
  description : Option String
  thumbnail : Option String
  contentType : String
  itemCount : Option Nat
deriving DecidableEq, Repr

/-- `FetchMediaOptions` from `types/media.ts`: both fields optional. -/
structure FetchMediaOptions where
  limit : Option Int
  cursor : Option String
deriving DecidableEq, Repr

/-- `PaginatedResult<T>` from `types/media.ts`. -/
structure PaginatedResult (α : Type) where
  items : List α
  nextCursor : Option String
  total : Option Int
deriving DecidableEq, Repr

/-! ## JS `Map` model

`PodcastSource.feeds` and `YouTubeSource.uploadsPlaylistCache` are JS `Map`s.
A `Map` is modelled as an association list in insertion order: `set` replaces
the value in place when the key is present and appends otherwise, `get`
returns the value of the first (unique) matching key, and `values()`
enumerates values in insertion order. -/

/-- JS `map.get(k)` (as `Option`). -/
def mapGet {α : Type} (m : List (String × α)) (k : String) : Option α :=
  (m.find? (fun p => p.1 = k)).map (fun p => p.2)

/-- JS `map.set(k, v)`: replace the value of the (unique) matching key in
place, append at the end when the key is new. -/
def mapSet {α : Type} : List (String × α) → String → α → List (String × α)
  | [], k, v => [(k, v)]
  | p :: rest, k, v => if p.1 = k then (k, v) :: rest else p :: mapSet rest k v

/-! ## The `MediaSource` base class (`src/services/MediaSource.ts`) -/

/-- `MediaSource.checkForUpdates`: the capability gate shared by every
adapter.  When `isUpdateSource` is `false` it throws
`` `${this.displayName} does not support update polling` `` without calling
the adapter-specific routine; otherwise it delegates to the adapter's
`fetchUpdatesSince` (here passed in as the already-applied computation
`fetchUpdatesSince`, whose result type varies per adapter because state is
threaded explicitly). -/
def checkForUpdatesGate {α : Type} (isUpdateSource : Bool) (displayName : String)
    (fetchUpdatesSince : Except String α) : Except String α :=
  if !isUpdateSource then
    .error (displayName ++ " does not support update polling")
  else fetchUpdatesSince

/-- The base-class default `fetchUpdatesSince`, which returns `[]`; it is the
routine reached by `SpotifySource` (which does not override it). -/
def defaultFetchUpdatesSince (_collectionId _lastSeenItemId : String) :
    Except String (List MediaItem) :=
  .ok []

/-- `SpotifySource.checkForUpdates` (inherited from `MediaSource`):
`isUpdateSource = false`, `displayName = "Spotify"`. -/
def spotifyCheckForUpdates (collectionId lastSeenItemId : String) :
    Except String (List MediaItem) :=
  checkForUpdatesGate false "Spotify" (defaultFetchUpdatesSince collectionId lastSeenItemId)

/-! ## `PodcastSource` (`src/services/PodcastSource.ts`) -/

/-- `PodcastEpisode` from `PodcastSource.ts`. -/
structure PodcastEpisode where
  guid : String
  title : String
  description : Option String
  audioUrl : String
  imageUrl : Option String
  publishedAt : Option String
  duration : Option JsNum
deriving DecidableEq, Repr

/-- `PodcastFeed` from `PodcastSource.ts`. -/
structure PodcastFeed where
  url : String
  title : String
  description : Option String
  imageUrl : Option String
  episodes : List PodcastEpisode
deriving DecidableEq, Repr

/-- `PodcastSource.parseDuration`: plain decimal seconds (`/^\d+$/` then
`parseInt`), else split on `:` and convert the parts with `Number`
(`HH:MM:SS` or `MM:SS`); any other shape falls through to `0`. -/
def parseDuration (raw : String) : JsNum :=
  let trimmed := trimChars raw.data
  if !trimmed.isEmpty && trimmed.all isDigitChar then
    .int (natVal trimmed)
  else
    let parts := (splitChars ':' trimmed).map jsStringToNumber
    match parts with
    | [h, m, s] => ((h.mul (.int 3600)).add (m.mul (.int 60))).add s
    | [m, s] => (m.mul (.int 60)).add s
    | _ => .int 0

/-- The DOM-level view of one `<item>` element of an RSS document, recording
exactly the query results `parseRssFeed` reads from it: the `enclosure`'s
`url` attribute, the text content of `guid`, `title`, `description` and
`pubDate` (absent when the element is missing), the `href` attribute found
for the episode image, and the text of `itunes:duration` (or `duration`). -/
structure RssItem where
  enclosureUrl : Option String
  guid : Option String
  title : Option String
  description : Option String
  pubDate : Option String
  imageHref : Option String
  durationText : Option String
deriving DecidableEq, Repr

/-- The per-`<item>` body of `PodcastSource.parseRssFeed`: items without an
audio enclosure (attribute missing or empty, both falsy) are skipped; `guid`
falls back to the audio URL; `pubDate` is converted by
`new Date(·).toISOString()`, abstracted as the parameter `dateToIso`; a
present non-empty duration text is parsed with `parseDuration`. -/
def parseRssItem (dateToIso : String → String) (item : RssItem) : Option PodcastEpisode :=
  match item.enclosureUrl with
  | none => none
  | some audioUrl =>
    if audioUrl = "" then none
    else
      some
        { guid := item.guid.getD audioUrl
          title := item.title.getD "Untitled Episode"
          description := item.description
          audioUrl := audioUrl
          imageUrl := item.imageHref
          publishedAt :=
            match item.pubDate with
            | some d => if d = "" then none else some (dateToIso d)
            | none => none
          duration :=
            match item.durationText with
            | some s => if s = "" then none else some (parseDuration s)
            | none => none }

/-- The episode list produced by `parseRssFeed` from the `<item>` elements in
document order (the `forEach` with conditional `push`). -/
def parseRssItems (dateToIso : String → String) (items : List RssItem) : List PodcastEpisode :=
  items.filterMap (parseRssItem dateToIso)

/-- `PodcastSource.mapEpisode`. -/
def mapEpisode (episode : PodcastEpisode) (feed : PodcastFeed) : MediaItem :=
  { id := episode.guid
    source := .podcast
    title := episode.title
    sourceId := episode.audioUrl
    thumbnail := episode.imageUrl <|> feed.imageUrl
    duration := episode.duration
    artist := some feed.title
    publishedAt := episode.publishedAt }

/-- `PodcastSource.mapFeedToCollection`. -/
def mapFeedToCollection (feed : PodcastFeed) : MediaCollection :=
  { id := feed.url
    source := .podcast
    title := feed.title
    description := feed.description
    thumbnail := feed.imageUrl
    contentType := "feed"
    itemCount := some feed.episodes.length }

/-- The mutable state of a `PodcastSource`: the `feeds` map
(feed URL → parsed feed). -/
structure PodcastState where
  feeds : List (String × PodcastFeed)
deriving DecidableEq, Repr

/-- The network-and-parse step `PodcastSource.fetchAndParseFeed`: fetching
the (possibly CORS-proxied) URL and running `parseRssFeed` on the response
body.  It is abstracted as an oracle from the feed URL to the parsed feed
(the CORS proxy only rewrites the fetch URL, never the feed's identity);
`.error` covers a failed fetch or a parse failure. -/
def PodcastNet : Type := String → Except String PodcastFeed

/-- `PodcastSource.refreshFeed`: fetch-and-parse, then `feeds.set(url, feed)`. -/
def refreshFeed (net : PodcastNet) (st : PodcastState) (feedUrl : String) :
    Except String (PodcastFeed × PodcastState) :=
  match net feedUrl with
  | .error e => .error e
  | .ok feed => .ok (feed, ⟨mapSet st.feeds feedUrl feed⟩)

/-- The accumulation loop of `PodcastSource.fetchUpdatesSince`: walk the
episodes in feed order, stop at the first episode whose `guid` equals
`lastSeenItemId` (excluded), mapping each earlier episode with `mapEpisode`. -/
def collectUntilSeen (feed : PodcastFeed) (lastSeenItemId : String) :
    List PodcastEpisode → List MediaItem
  | [] => []
  | ep :: rest =>
    if ep.guid = lastSeenItemId then []
    else mapEpisode ep feed :: collectUntilSeen feed lastSeenItemId rest

/-- `PodcastSource.fetchUpdatesSince`: refresh the feed, accumulate episodes
until `lastSeenItemId`, and reverse (oldest-first). -/
def podcastFetchUpdatesSince (net : PodcastNet) (st : PodcastState)
    (collectionId lastSeenItemId : String) :
    Except String (List MediaItem × PodcastState) :=
  match refreshFeed net st collectionId with
  | .error e => .error e
  | .ok (feed, st') =>
    .ok ((collectUntilSeen feed lastSeenItemId feed.episodes).reverse, st')

/-- `PodcastSource.checkForUpdates` (inherited gate, `isUpdateSource = true`,
`displayName = "Podcasts"`). -/
def podcastCheckForUpdates (net : PodcastNet) (st : PodcastState)
    (collectionId lastSeenItemId : String) :
    Except String (List MediaItem × PodcastState) :=
  checkForUpdatesGate true "Podcasts"
    (podcastFetchUpdatesSince net st collectionId lastSeenItemId)

/-- The pagination core shared verbatim by `PodcastSource.getAvailableMedia`
and `PodcastSource.getCollectionItems` (the source repeats these lines in
each method):

    const limit = options?.limit ?? defaultLimit;
    const offset = options?.cursor ? parseInt(options.cursor, 10) : 0;
    const page = l.slice(offset, offset + limit);
    const hasMore = offset + limit < l.length;
    nextCursor = hasMore ? String(offset + limit) : undefined

Note `options?.cursor ? … : 0`: an *empty* cursor string is falsy and is
treated like an absent cursor. -/
def paginateSlice {α : Type} (l : List α) (defaultLimit : Int)
    (options : Option FetchMediaOptions) : List α × Option String :=
  let limit : Int := (options.bind (fun o => o.limit)).getD defaultLimit
  let offset : JsNum :=
    match options.bind (fun o => o.cursor) with
    | some c => if c = "" then .int 0 else jsParseInt c
    | none => .int 0
  let page := jsSlice l offset (offset.add (.int limit))
  let hasMore := (offset.add (.int limit)).ltB (.int l.length)
  (page, if hasMore then some (offset.add (.int limit)).toStr else none)

/-- `PodcastSource.getAvailableMedia`: paginate `Array.from(feeds.values())`
with default limit `allFeeds.length`, mapping each feed with
`mapFeedToCollection`. -/
def podcastGetAvailableMedia (st : PodcastState) (options : Option FetchMediaOptions) :
    PaginatedResult MediaCollection :=
  let allFeeds := st.feeds.map (fun p => p.2)
  let pn := paginateSlice allFeeds (allFeeds.length : Int) options
  { items := pn.1.map mapFeedToCollection
    nextCursor := pn.2
    total := some (allFeeds.length : Int) }

/-- The page built by `PodcastSource.getCollectionItems` once the feed is
available: paginate `feed.episodes` with default limit 20, mapping with
`mapEpisode`. -/
def podcastEpisodePage (feed : PodcastFeed) (options : Option FetchMediaOptions) :
    PaginatedResult MediaItem :=
  let pn := paginateSlice feed.episodes 20 options
  { items := pn.1.map (fun ep => mapEpisode ep feed)
    nextCursor := pn.2
    total := some (feed.episodes.length : Int) }

/-- `PodcastSource.getCollectionItems`: the collection id is the feed URL;
an unknown feed is fetched fresh and stored before paginating. -/
def podcastGetCollectionItems (net : PodcastNet) (st : PodcastState)
    (collectionId : String) (options : Option FetchMediaOptions) :
    Except String (PaginatedResult MediaItem × PodcastState) :=
  match mapGet st.feeds collectionId with
  | some feed => .ok (podcastEpisodePage feed options, st)
  | none =>
    match net collectionId with
    | .error e => .error e
    | .ok feed => .ok (podcastEpisodePage feed options, ⟨mapSet st.feeds collectionId feed⟩)

/-! ## `YouTubeSource` (`src/services/YouTubeSource.ts`) -/

/-- `YouTubeThumbnails`: the three optional thumbnail URLs. -/
structure YtThumbnails where
  thumbDefault : Option String
  thumbMedium : Option String
  thumbHigh : Option String
deriving DecidableEq, Repr

/-- `YouTubeSource.pickThumbnail`:
`thumbnails.medium?.url ?? thumbnails.high?.url ?? thumbnails.default?.url`. -/
def pickThumbnail (t : YtThumbnails) : Option String :=
  t.thumbMedium <|> (t.thumbHigh <|> t.thumbDefault)

/-- The `snippet` of a `YouTubePlaylistItem`
(`resourceVideoId` is `snippet.resourceId.videoId`). -/
structure YtSnippet where
  title : String
  description : String
  thumbnails : YtThumbnails
  channelTitle : String
  publishedAt : String
  resourceVideoId : String
deriving DecidableEq, Repr

/-- The optional `contentDetails` of a `YouTubePlaylistItem`. -/
structure YtContentDetails where
  videoId : String
  videoPublishedAt : String
deriving DecidableEq, Repr

/-- `YouTubePlaylistItem` (`itemId` is the playlist-item `id`). -/
structure YtPlaylistItem where
  itemId : String
  snippet : YtSnippet
  contentDetails : Option YtContentDetails
deriving DecidableEq, Repr

/-- `YouTubeSource.mapPlaylistItem`. -/
def mapPlaylistItem (item : YtPlaylistItem) : MediaItem :=
  let videoId := (item.contentDetails.map (fun cd => cd.videoId)).getD item.snippet.resourceVideoId
  { id := videoId
    source := .youtube
    title := item.snippet.title
    sourceId := videoId
    thumbnail := pickThumbnail item.snippet.thumbnails
    duration := none
    artist := some item.snippet.channelTitle
    publishedAt :=
      some ((item.contentDetails.map (fun cd => cd.videoPublishedAt)).getD item.snippet.publishedAt) }

/-- `YouTubePlaylistItemsResponse` (`totalResults` is
`pageInfo.totalResults`). -/
structure YtPlaylistItemsResponse where
  items : List YtPlaylistItem
  nextPageToken : Option String
  totalResults : Int
deriving DecidableEq, Repr

/-- `YouTubeChannelResponse`, flattened to the only field read from it:
`items[i].contentDetails.relatedPlaylists.uploads`. -/
structure YtChannelsResponse where
  uploads : List String
deriving DecidableEq, Repr

/-- The network oracle for `YouTubeSource.fetchApi` on the two endpoints the
modelled operations use.  `channels cid` is
`/channels?part=contentDetails&id=cid`; `playlistItems pid limit cursor` is
`/playlistItems?playlistId=pid&maxResults=limit[&pageToken=cursor]`.
Authentication and HTTP failures surface as `.error`. -/
structure YtApi where
  channels : String → Except String YtChannelsResponse
  playlistItems : String → Int → Option String → Except String YtPlaylistItemsResponse

/-- The mutable state of a `YouTubeSource`: the `uploadsPlaylistCache` map
(channel ID → uploads playlist ID). -/
structure YtState where
  uploadsPlaylistCache : List (String × String)
deriving DecidableEq, Repr

/-- The cache-miss path of `YouTubeSource.getUploadsPlaylistId`: resolve via
the channels endpoint, fail with `YouTube channel not found` on an empty
result, and cache the uploads playlist ID. -/
def resolveUploadsPlaylistId (api : YtApi) (st : YtState) (channelId : String) :
    Except String (String × YtState) :=
  match api.channels channelId with
  | .error e => .error e
  | .ok data =>
    match data.uploads with
    | [] => .error ("YouTube channel not found: " ++ channelId)
    | uploadsId :: _ => .ok (uploadsId, ⟨mapSet st.uploadsPlaylistCache channelId uploadsId⟩)

/-- `YouTubeSource.getUploadsPlaylistId`: `if (cached) return cached` — note
JS truthiness: a cached *empty* string falls through to re-resolution. -/
def getUploadsPlaylistId (api : YtApi) (st : YtState) (channelId : String) :
    Except String (String × YtState) :=
  match mapGet st.uploadsPlaylistCache channelId with
  | some cached =>
    if cached = "" then resolveUploadsPlaylistId api st channelId
    else .ok (cached, st)
  | none => resolveUploadsPlaylistId api st channelId

/-- `YouTubeSource.getCollectionItems`: resolve the channel to its uploads
playlist, then fetch one page.  The `pageToken` parameter is only set when
`options?.cursor` is truthy (an empty cursor string is dropped). -/
def ytGetCollectionItems (api : YtApi) (st : YtState) (collectionId : String)
    (options : Option FetchMediaOptions) :
    Except String (PaginatedResult MediaItem × YtState) :=
  match getUploadsPlaylistId api st collectionId with
  | .error e => .error e
  | .ok (uploadsPlaylistId, st') =>
    let limit : Int := (options.bind (fun o => o.limit)).getD 20
    let cursor : Option String :=
      match options.bind (fun o => o.cursor) with
      | some c => if c = "" then none else some c
      | none => none
    match api.playlistItems uploadsPlaylistId limit cursor with
    | .error e => .error e
    | .ok data =>
      .ok ({ items := data.items.map mapPlaylistItem
             nextCursor := data.nextPageToken
             total := some data.totalResults }, st')

/-- The inner `for`-loop of `YouTubeSource.fetchUpdatesSince` over one page:
accumulate items until one with `id === lastSeenItemId` is met; the `Bool`
is the `found` flag. -/
def scanForMarker (lastSeenItemId : String) : List MediaItem → List MediaItem × Bool
  | [] => ([], false)
  | item :: rest =>
    if item.id = lastSeenItemId then ([], true)
    else
      let tf := scanForMarker lastSeenItemId rest
      (item :: tf.1, tf.2)

/-- The `while (!found)` page walk of `YouTubeSource.fetchUpdatesSince`:
fetch a 20-item page, scan it, and follow `nextCursor` while the marker has
not been found.  The loop has no iteration bound of its own; `fuel` is the
number of loop iterations unrolled, and `.ok none` means the loop was still
running after `fuel` pages. -/
def ytUpdatesWalk (api : YtApi) (collectionId lastSeenItemId : String) :
    Nat → YtState → Option String → List MediaItem →
    Except String (Option (List MediaItem × YtState))
  | 0, _, _, _ => .ok none
  | fuel + 1, st, cursor, allNew =>
    match ytGetCollectionItems api st collectionId (some ⟨some 20, cursor⟩) with
    | .error e => .error e
    | .ok (page, st') =>
      let scanned := scanForMarker lastSeenItemId page.items
      if scanned.2 then .ok (some (allNew ++ scanned.1, st'))
      else
        match page.nextCursor with
        | some c => ytUpdatesWalk api collectionId lastSeenItemId fuel st' (some c) (allNew ++ scanned.1)
        | none => .ok (some (allNew ++ scanned.1, st'))

/-- `YouTubeSource.fetchUpdatesSince`: run the walk from no cursor and an
empty accumulator and return the accumulated items reversed (oldest-first).
`.ok none` means the walk was still running after `fuel` pages. -/
def ytFetchUpdatesSince (api : YtApi) (st : YtState)
    (collectionId lastSeenItemId : String) (fuel : Nat) :
    Except String (Option (List MediaItem × YtState)) :=
  match ytUpdatesWalk api collectionId lastSeenItemId fuel st none [] with
  | .error e => .error e
  | .ok none => .ok none
  | .ok (some (allNew, st')) => .ok (some (allNew.reverse, st'))

/-- `YouTubeSource.checkForUpdates` (inherited gate, `isUpdateSource = true`,
`displayName = "YouTube"`). -/
def ytCheckForUpdates (api : YtApi) (st : YtState)
    (collectionId lastSeenItemId : String) (fuel : Nat) :
    Except String (Option (List MediaItem × YtState)) :=
  checkForUpdatesGate true "YouTube"
    (ytFetchUpdatesSince api st collectionId lastSeenItemId fuel)

/-- A well-formed finite uploads listing used to instantiate the `YtApi`
oracle: page `k` of `pages` is served for the page token `natRepr k` (no
token means page 0), and `nextPageToken` points at page `k + 1` while one
exists.  Requests for any other playlist ID fail. -/
def chainApi (uploadsId : String) (pages : List (List YtPlaylistItem)) (total : Int) : YtApi :=
  { channels := fun _ => .ok ⟨[uploadsId]⟩
    playlistItems := fun pid _ cursor =>
      if pid = uploadsId then
        let k : Nat :=
          match cursor with
          | none => 0
          | some s =>
            match jsParseInt s with
            | .int i => i.toNat
            | .nan => 0
        .ok { items := ((pages.drop k).headD [])
              nextPageToken := if k + 1 < pages.length then some (natRepr (k + 1)) else none
              totalResults := total }
      else .error "unknown playlist" }

/-! ## Decimal printing / parsing round trip -/

theorem digitVal_digitChar {d : Nat} (h : d < 10) : digitVal (Nat.digitChar d) = d := by
  interval_cases d <;> decide

theorem isDigitChar_digitChar {d : Nat} (h : d < 10) : isDigitChar (Nat.digitChar d) = true := by
  interval_cases d <;> decide

theorem isDigitChar_facts {c : Char} (h : isDigitChar c = true) :
    c ≠ '-' ∧ c ≠ '+' ∧ isSpaceChar c = false ∧ c ≠ ':' := by
  have hn : 48 ≤ c.toNat ∧ c.toNat ≤ 57 := by
    simpa [isDigitChar, Bool.and_eq_true, decide_eq_true_iff] using h
  refine ⟨?_, ?_, ?_, ?_⟩
  · intro hc; subst hc; exact absurd hn (by decide)
  · intro hc; subst hc; exact absurd hn (by decide)
  · simp only [isSpaceChar, Bool.or_eq_false_iff, decide_eq_false_iff_not]
    omega
  · intro hc; subst hc; exact absurd hn (by decide)

theorem natDigitsAux_eq : ∀ fuel n : Nat, n ≤ fuel →
    natDigitsAux fuel n = (Nat.digits 10 n).map Nat.digitChar
  | 0, 0, _ => by simp [natDigitsAux]
  | 0, _ + 1, h => absurd h (by omega)
  | _ + 1, 0, _ => by simp [natDigitsAux]
  | fuel + 1, n + 1, h => by
    have hdiv : (n + 1) / 10 < n + 1 := Nat.div_lt_self (Nat.succ_pos n) (by norm_num)
    rw [natDigitsAux, Nat.digits_def' (by norm_num : (1 : Nat) < 10) (Nat.succ_pos n),
      natDigitsAux_eq fuel ((n + 1) / 10) (by omega), List.map_cons]

theorem takeWhile_eq_self_of_all {α : Type} (p : α → Bool) :
    ∀ l : List α, l.all p = true → l.takeWhile p = l
  | [], _ => rfl
  | a :: l, h => by
    rw [List.all_cons, Bool.and_eq_true] at h
    simp [List.takeWhile_cons, h.1, takeWhile_eq_self_of_all p l h.2]

theorem natVal_append_singleton (cs : List Char) (c : Char) :
    natVal (cs ++ [c]) = 10 * natVal cs + digitVal c := by
  simp [natVal, List.foldl_append]

theorem natVal_reverse_map :
    ∀ L : List Nat, (∀ d ∈ L, d < 10) →
      natVal ((L.map Nat.digitChar).reverse) = Nat.ofDigits 10 L
  | [], _ => by simp [natVal, Nat.ofDigits_nil]
  | d :: L, h => by
    have hd : d < 10 := h d (List.mem_cons_self d L)
    have hL : ∀ x ∈ L, x < 10 := fun x hx => h x (List.mem_cons_of_mem d hx)
    rw [List.map_cons, List.reverse_cons, natVal_append_singleton,
      natVal_reverse_map L hL, digitVal_digitChar hd, Nat.ofDigits_cons]
    ring

theorem natRepr_data (n : Nat) (hn : n ≠ 0) :
    (natRepr n).data = ((Nat.digits 10 n).map Nat.digitChar).reverse := by
  simp [natRepr, hn, natDigitsAux_eq n n le_rfl]

theorem natRepr_data_all_digits (n : Nat) :
    (natRepr n).data.all isDigitChar = true := by
  by_cases hn : n = 0
  · subst hn; decide
  · rw [natRepr_data n hn]
    simp only [List.all_eq_true, List.mem_reverse, List.mem_map]
    rintro c ⟨d, hd, rfl⟩
    exact isDigitChar_digitChar (Nat.digits_lt_base (by norm_num) hd)

theorem natRepr_data_ne_nil (n : Nat) : (natRepr n).data ≠ [] := by
  by_cases hn : n = 0
  · subst hn; decide
  · rw [natRepr_data n hn]
    simp [Nat.digits_ne_nil_iff_ne_zero.mpr hn]

theorem natRepr_ne_empty (n : Nat) : natRepr n ≠ "" := by
  intro h
  exact natRepr_data_ne_nil n (by rw [h])

theorem natVal_natRepr (n : Nat) : natVal (natRepr n).data = n := by
  by_cases hn : n = 0
  · subst hn; decide
  · rw [natRepr_data n hn,
      natVal_reverse_map _ (fun d hd => Nat.digits_lt_base (by norm_num) hd),
      Nat.ofDigits_digits]

theorem dropWhile_isSpace_of_digits (cs : List Char) (h : cs.all isDigitChar = true) :
    cs.dropWhile isSpaceChar = cs := by
  cases cs with
  | nil => rfl
  | cons c l =>
    rw [List.all_cons, Bool.and_eq_true] at h
    simp [List.dropWhile_cons, (isDigitChar_facts h.1).2.2.1]

theorem jsParseInt_of_digits (cs : List Char) (hne : cs ≠ [])
    (h : cs.all isDigitChar = true) : jsParseInt ⟨cs⟩ = .int (natVal cs) := by
  obtain ⟨c, l, rfl⟩ := List.exists_cons_of_ne_nil hne
  have hc : isDigitChar c = true := by
    rw [List.all_cons, Bool.and_eq_true] at h
    exact h.1
  obtain ⟨hm, hp, _hs, _⟩ := isDigitChar_facts hc
  simp only [jsParseInt, dropWhile_isSpace_of_digits _ h, hm, hp, if_false,
    takeWhile_eq_self_of_all isDigitChar _ h]
  simp

theorem jsParseInt_natRepr (n : Nat) : jsParseInt (natRepr n) = .int n := by
  have h1 := natRepr_data_all_digits n
  have h2 := natRepr_data_ne_nil n
  have : jsParseInt ⟨(natRepr n).data⟩ = .int (natVal (natRepr n).data) :=
    jsParseInt_of_digits _ h2 h1
  rwa [natVal_natRepr] at this

theorem jsNum_toStr_nat (n : Nat) : (JsNum.int (n : Int)).toStr = natRepr n := by
  simp [JsNum.toStr]

/-! ## Pagination: slices, cursors and page walks -/

theorem jsSlice_nat {α : Type} (l : List α) (o k : Nat) :
    jsSlice l (.int (o : Int)) (.int ((o : Int) + (k : Int))) = (l.drop o).take k := by
  have hcast : ((o : Int) + (k : Int)) = ((o + k : Nat) : Int) := by push_cast; ring
  rw [hcast]
  simp only [jsSlice, jsSliceIdx]
  have h1 : ¬ ((o : Int) < 0) := by omega
  have h2 : ¬ (((o + k : Nat) : Int) < 0) := by omega
  simp only [h1, h2, if_false, Int.toNat_natCast]
  by_cases hol : l.length ≤ o
  · have hd1 : l.drop (min o l.length) = [] := by
      rw [min_eq_right hol]
      simp
    have hd2 : l.drop o = [] := List.drop_eq_nil_of_le hol
    rw [hd1, hd2]
    simp
  · push_neg at hol
    rw [min_eq_left (le_of_lt hol)]
    have hlen : (l.drop o).length = l.length - o := by simp
    rw [List.take_eq_take]
    omega

/-- `cur` is a cursor denoting offset `o`: either absent (offset `0`) or the
decimal rendering of `o`. -/
def cursorDenotes (cur : Option String) (o : Nat) : Prop :=
  (cur = none ∧ o = 0) ∨ cur = some (natRepr o)

theorem paginateSlice_offset {α : Type} (l : List α) (defL : Int) (lim : Nat)
    (o : Nat) (cur : Option String)
    (hoffset :
      (match cur with
        | some c => if c = "" then JsNum.int 0 else jsParseInt c
        | none => JsNum.int 0) = JsNum.int (o : Int)) :
    paginateSlice l defL (some ⟨some (lim : Int), cur⟩) =
      ((l.drop o).take lim,
        if o + lim < l.length then some (natRepr (o + lim)) else none) := by
  simp only [paginateSlice, Option.bind, Option.getD_some, hoffset]
  have hadd : (JsNum.int (o : Int)).add (.int (lim : Int)) = .int ((o : Int) + (lim : Int)) := rfl
  rw [hadd, jsSlice_nat l o lim]
  have hlt : (JsNum.int ((o : Int) + (lim : Int))).ltB (.int (l.length : Int)) =
      decide (o + lim < l.length) := by
    simp only [JsNum.ltB]
    congr 1
    simp only [eq_iff_iff]
    omega
  rw [hlt]
  simp only [decide_eq_true_eq]
  by_cases hmore : o + lim < l.length
  · rw [if_pos hmore, if_pos hmore]
    have hc : ((o : Int) + (lim : Int)) = ((o + lim : Nat) : Int) := by push_cast; ring
    rw [hc, jsNum_toStr_nat]
  · rw [if_neg hmore, if_neg hmore]

theorem paginateSlice_char {α : Type} (l : List α) (defL : Int) (lim : Nat)
    (hlim : 0 < lim) (o : Nat) (cur : Option String) (hcur : cursorDenotes cur o) :
    paginateSlice l defL (some ⟨some (lim : Int), cur⟩) =
      ((l.drop o).take lim,
        if o + lim < l.length then some (natRepr (o + lim)) else none) := by
  apply paginateSlice_offset
  rcases hcur with ⟨rfl, rfl⟩ | rfl
  · rfl
  · simp [natRepr_ne_empty o, jsParseInt_natRepr o]

/-- The cursor-following page walk of the spec's §8 pagination property: call
with `cur`, then keep following `nextCursor`; `some L` means the walk reached
a page with `nextCursor` absent within `fuel` calls, concatenating all pages
into `L`. -/
def followPages {α : Type} (get : Option String → PaginatedResult α) :
    Nat → Option String → Option (List α)
  | 0, _ => none
  | fuel + 1, cur =>
    let r := get cur
    match r.nextCursor with
    | none => some r.items
    | some c => (followPages get fuel (some c)).map (fun rest => r.items ++ rest)

theorem followPages_succ {α : Type} (get : Option String → PaginatedResult α)
    (fuel : Nat) (cur : Option String) :
    followPages get (fuel + 1) cur =
      match (get cur).nextCursor with
      | none => some (get cur).items
      | some c => (followPages get fuel (some c)).map (fun rest => (get cur).items ++ rest) :=
  rfl

theorem followPages_paginate {α β : Type} (l : List α) (f : α → β) (defL : Int)
    (get : Option String → PaginatedResult β) (lim : Nat) (hlim : 0 < lim)
    (hget : ∀ cur,
      (get cur).items = (paginateSlice l defL (some ⟨some (lim : Int), cur⟩)).1.map f ∧
      (get cur).nextCursor = (paginateSlice l defL (some ⟨some (lim : Int), cur⟩)).2) :
    ∀ fuel o cur, l.length ≤ o + fuel * lim → cursorDenotes cur o →
      followPages get (fuel + 1) cur = some ((l.drop o).map f) := by
  intro fuel
  induction fuel with
  | zero =>
    intro o cur hlen hcur
    have hpage := paginateSlice_char l defL lim hlim o cur hcur
    have hnext : (get cur).nextCursor = none := by
      rw [(hget cur).2, hpage]
      exact if_neg (by omega)
    have hitems : (get cur).items = ((l.drop o).take lim).map f := by
      rw [(hget cur).1, hpage]
    rw [followPages_succ, hnext]
    simp only [hitems]
    have hdrop : (l.drop o).take lim = l.drop o :=
      List.take_of_length_le (by simp; omega)
    rw [hdrop]
  | succ fuel ih =>
    intro o cur hlen hcur
    have hpage := paginateSlice_char l defL lim hlim o cur hcur
    by_cases hmore : o + lim < l.length
    · have hnext : (get cur).nextCursor = some (natRepr (o + lim)) := by
        rw [(hget cur).2, hpage]
        exact if_pos hmore
      have hitems : (get cur).items = ((l.drop o).take lim).map f := by
        rw [(hget cur).1, hpage]
      have hrec := ih (o + lim) (some (natRepr (o + lim)))
        (by
          have hexp : (fuel + 1) * lim = fuel * lim + lim := by ring
          omega)
        (Or.inr rfl)
      rw [followPages_succ, hnext]
      simp only [hrec, hitems, Option.map_some']
      congr 1
      rw [← List.map_append, List.drop_take_append_drop]
    · have hnext : (get cur).nextCursor = none := by
        rw [(hget cur).2, hpage]
        exact if_neg hmore
      have hitems : (get cur).items = ((l.drop o).take lim).map f := by
        rw [(hget cur).1, hpage]
      rw [followPages_succ, hnext]
      simp only [hitems]
      have hdrop : (l.drop o).take lim = l.drop o :=
        List.take_of_length_le (by simp; omega)
      rw [hdrop]

/-- A single call with `limit = total` and no cursor returns every element,
with `nextCursor` absent. -/
theorem paginateSlice_total {α : Type} (l : List α) (defL : Int) :
    paginateSlice l defL (some ⟨some (l.length : Int), none⟩) = (l, none) := by
  rcases Nat.eq_zero_or_pos l.length with hz | hp
  · have hnil : l = [] := List.length_eq_zero.mp hz
    subst hnil
    simp [paginateSlice, Option.bind, jsSlice, jsSliceIdx, JsNum.add, JsNum.ltB]
  · have := paginateSlice_char l defL l.length hp 0 none (Or.inl ⟨rfl, rfl⟩)
    rw [this]
    simp

/-! ## Lemmas about the JS `Map` model -/

theorem mapGet_mapSet_self {α : Type} :
    ∀ (m : List (String × α)) (k : String) (v : α), mapGet (mapSet m k v) k = some v
  | [], k, v => by simp [mapSet, mapGet]
  | p :: rest, k, v => by
    by_cases h : p.1 = k
    · simp [mapSet, h, mapGet]
    · rw [mapSet, if_neg h, mapGet, List.find?_cons_of_neg _ (by simpa using h)]
      exact mapGet_mapSet_self rest k v

theorem mapGet_mapSet_ne {α : Type} :
    ∀ (m : List (String × α)) (k k' : String) (v : α), k' ≠ k →
      mapGet (mapSet m k v) k' = mapGet m k'
  | [], k, k', v, h => by
    rw [mapSet, mapGet, List.find?_cons_of_neg _ (by simpa using fun hh => h hh.symm)]
    rfl
  | p :: rest, k, k', v, h => by
    by_cases hpk : p.1 = k
    · have hpk' : ¬ (p.1 = k') := by rw [hpk]; exact fun hh => h hh.symm
      rw [mapSet, if_pos hpk, mapGet,
        List.find?_cons_of_neg _ (by simpa using fun hh => h hh.symm),
        mapGet, List.find?_cons_of_neg _ (by simpa using hpk')]
    · by_cases hpk' : p.1 = k'
      · rw [mapSet, if_neg hpk, mapGet, List.find?_cons_of_pos _ (by simpa using hpk'),
          mapGet, List.find?_cons_of_pos _ (by simpa using hpk')]
      · rw [mapSet, if_neg hpk, mapGet, List.find?_cons_of_neg _ (by simpa using hpk'),
          mapGet, List.find?_cons_of_neg _ (by simpa using hpk')]
        exact mapGet_mapSet_ne rest k k' v h

theorem mapSet_mapSet_self {α : Type} :
    ∀ (m : List (String × α)) (k : String) (v : α),
      mapSet (mapSet m k v) k v = mapSet m k v
  | [], k, v => by simp [mapSet]
  | p :: rest, k, v => by
    by_cases h : p.1 = k
    · simp [mapSet, h]
    · rw [mapSet, if_neg h, mapSet, if_neg h, mapSet_mapSet_self rest k v]

/-! ## Update detection: closed forms -/

theorem collectUntilSeen_eq (feed : PodcastFeed) (marker : String) :
    ∀ eps : List PodcastEpisode,
      collectUntilSeen feed marker eps =
        (eps.takeWhile (fun ep => ep.guid != marker)).map (fun ep => mapEpisode ep feed)
  | [] => rfl
  | ep :: rest => by
    by_cases h : ep.guid = marker
    · simp [collectUntilSeen, List.takeWhile_cons, h]
    · simp [collectUntilSeen, List.takeWhile_cons, h, collectUntilSeen_eq feed marker rest]

/-- Successful `PodcastSource.checkForUpdates`: the refreshed feed's episodes
up to (excluding) the first one whose `guid` is the marker, mapped and
reversed, and the feed map updated at exactly the refreshed URL. -/
theorem podcastCheckForUpdates_ok (net : PodcastNet) (st : PodcastState)
    (url marker : String) (feed : PodcastFeed) (h : net url = .ok feed) :
    podcastCheckForUpdates net st url marker =
      .ok (((feed.episodes.takeWhile (fun ep => ep.guid != marker)).map
              (fun ep => mapEpisode ep feed)).reverse,
           ⟨mapSet st.feeds url feed⟩) := by
  simp [podcastCheckForUpdates, checkForUpdatesGate, podcastFetchUpdatesSince, refreshFeed, h,
    collectUntilSeen_eq]

theorem scanForMarker_eq (marker : String) :
    ∀ items : List MediaItem,
      scanForMarker marker items =
        (items.takeWhile (fun i => i.id != marker), items.any (fun i => i.id == marker))
  | [] => rfl
  | item :: rest => by
    by_cases h : item.id = marker
    · simp [scanForMarker, List.takeWhile_cons, List.any_cons, h]
    · simp [scanForMarker, List.takeWhile_cons, List.any_cons, h, scanForMarker_eq marker rest]

theorem takeWhile_append_of_exists_neg {α : Type} (p : α → Bool) :
    ∀ xs ys : List α, (∃ x ∈ xs, p x = false) → (xs ++ ys).takeWhile p = xs.takeWhile p
  | [], _, h => by
    rcases h with ⟨x, hx, _⟩
    cases hx
  | a :: xs, ys, h => by
    by_cases hpa : p a = true
    · have h' : ∃ x ∈ xs, p x = false := by
        rcases h with ⟨x, hx, hpx⟩
        rcases List.mem_cons.mp hx with rfl | hx'
        · rw [hpa] at hpx
          cases hpx
        · exact ⟨x, hx', hpx⟩
      simp [List.takeWhile_cons, hpa, takeWhile_append_of_exists_neg p xs ys h']
    · have hpa' : p a = false := by
        cases hv : p a
        · rfl
        · exact absurd hv hpa
      simp [List.takeWhile_cons, hpa']

theorem flatten_drop_decompose {α : Type} (pages : List (List α)) (n : Nat) :
    (pages.drop n).flatten = ((pages.drop n).headD []) ++ (pages.drop (n + 1)).flatten := by
  have hdrop : pages.drop (n + 1) = (pages.drop n).drop 1 := by
    rw [List.drop_drop]
  rw [hdrop]
  cases hd : pages.drop n with
  | nil => simp
  | cons x t => simp

/-- One page fetch of the walk under `chainApi`, with the uploads playlist
already resolved in the cache: page `k` is served and the state is
unchanged. -/
theorem ytGetCollectionItems_chain (u : String) (hu : u ≠ "")
    (pages : List (List YtPlaylistItem)) (total : Int) (st : YtState) (cid : String)
    (hcache : mapGet st.uploadsPlaylistCache cid = some u)
    (k : Nat) (cur : Option String) (hcur : cursorDenotes cur k) :
    ytGetCollectionItems (chainApi u pages total) st cid (some ⟨some 20, cur⟩) =
      .ok ({ items := ((pages.drop k).headD []).map mapPlaylistItem
             nextCursor := if k + 1 < pages.length then some (natRepr (k + 1)) else none
             total := some total }, st) := by
  rw [ytGetCollectionItems, getUploadsPlaylistId, hcache]
  simp only [if_neg hu]
  rcases hcur with ⟨rfl, rfl⟩ | rfl
  · simp only [chainApi, Option.bind, List.headD_eq_head?]
    cases pages <;> simp
  · simp [chainApi, Option.bind, natRepr_ne_empty k, jsParseInt_natRepr k, List.headD_eq_head?]

theorem ytUpdatesWalk_succ (api : YtApi) (cid marker : String) (fuel : Nat)
    (st : YtState) (cursor : Option String) (allNew : List MediaItem) :
    ytUpdatesWalk api cid marker (fuel + 1) st cursor allNew =
      match ytGetCollectionItems api st cid (some ⟨some 20, cursor⟩) with
      | .error e => .error e
      | .ok (page, st') =>
        let scanned := scanForMarker marker page.items
        if scanned.2 then .ok (some (allNew ++ scanned.1, st'))
        else
          match page.nextCursor with
          | some c => ytUpdatesWalk api cid marker fuel st' (some c) (allNew ++ scanned.1)
          | none => .ok (some (allNew ++ scanned.1, st')) :=
  rfl

/-- The page walk of `YouTubeSource.fetchUpdatesSince` under a resolved
finite `chainApi` listing: starting at page `n` with enough fuel, it
accumulates exactly the mapped items of the remaining pages up to
(excluding) the first one whose id is the marker, and the state is
unchanged. -/
theorem ytUpdatesWalk_chain (u : String) (hu : u ≠ "") (pages : List (List YtPlaylistItem))
    (total : Int) (cid marker : String) :
    ∀ (fuel n : Nat) (st : YtState) (cur : Option String) (acc : List MediaItem),
      mapGet st.uploadsPlaylistCache cid = some u →
      cursorDenotes cur n →
      pages.length ≤ n + fuel → 0 < fuel →
      ytUpdatesWalk (chainApi u pages total) cid marker fuel st cur acc =
        .ok (some (acc ++ ((pages.drop n).flatten.map mapPlaylistItem).takeWhile
              (fun i => i.id != marker), st)) := by
  intro fuel
  induction fuel with
  | zero =>
    intro n st cur acc _ _ _ hpos
    omega
  | succ fuel ih =>
    intro n st cur acc hcache hcur hlen _
    rw [ytUpdatesWalk_succ, ytGetCollectionItems_chain u hu pages total st cid hcache n cur hcur]
    have hdecomp : (pages.drop n).flatten.map mapPlaylistItem =
        ((pages.drop n).headD []).map mapPlaylistItem ++
          (pages.drop (n + 1)).flatten.map mapPlaylistItem := by
      rw [flatten_drop_decompose, List.map_append]
    set pageItems := ((pages.drop n).headD []).map mapPlaylistItem with hpi
    simp only [scanForMarker_eq]
    by_cases hfound : pageItems.any (fun i => i.id == marker) = true
    · simp only [hfound, if_true]
      have hex : ∃ x ∈ pageItems, (fun i : MediaItem => i.id != marker) x = false := by
        rcases List.any_eq_true.mp hfound with ⟨x, hx, hxe⟩
        refine ⟨x, hx, ?_⟩
        simp only [bne, Bool.not_eq_false']
        exact hxe
      rw [hdecomp, takeWhile_append_of_exists_neg _ _ _ hex]
    · have hfound' : pageItems.any (fun i => i.id == marker) = false :=
        Bool.eq_false_iff.mpr hfound
      have hall : ∀ x ∈ pageItems, (fun i : MediaItem => i.id != marker) x = true := by
        intro x hx
        have := List.any_eq_false.mp hfound' x hx
        simp only [bne, Bool.not_eq_true']
        simpa using this
      have htw : pageItems.takeWhile (fun i => i.id != marker) = pageItems :=
        takeWhile_eq_self_of_all _ _ (List.all_eq_true.mpr hall)
      simp only [hfound', Bool.false_eq_true, if_false, htw]
      by_cases hmore : n + 1 < pages.length
      · simp only [if_pos hmore]
        rw [ih (n + 1) st (some (natRepr (n + 1))) (acc ++ pageItems) hcache (Or.inr rfl)
          (by omega) (by omega)]
        rw [hdecomp, List.takeWhile_append_of_pos hall, List.append_assoc]
      · simp only [if_neg hmore]
        have hnil : pages.drop (n + 1) = [] := List.drop_eq_nil_of_le (by omega)
        rw [hdecomp, hnil]
        simp only [List.flatten_nil, List.map_nil, List.append_nil]
        rw [takeWhile_eq_self_of_all _ _ (List.all_eq_true.mpr hall)]

/-- Successful `YouTubeSource.checkForUpdates` over a resolved finite
listing: the walked pages' items up to (excluding) the marker, reversed
(oldest-first), with the cache state unchanged. -/
theorem ytCheckForUpdates_chain (u : String) (hu : u ≠ "")
    (pages : List (List YtPlaylistItem)) (total : Int) (cid marker : String)
    (st : YtState) (hcache : mapGet st.uploadsPlaylistCache cid = some u)
    (fuel : Nat) (hfuel : pages.length ≤ fuel) (hpos : 0 < fuel) :
    ytCheckForUpdates (chainApi u pages total) st cid marker fuel =
      .ok (some (((pages.flatten.map mapPlaylistItem).takeWhile
            (fun i => i.id != marker)).reverse, st)) := by
  rw [ytCheckForUpdates, checkForUpdatesGate, ytFetchUpdatesSince,
    ytUpdatesWalk_chain u hu pages total cid marker fuel 0 st none []
      hcache (Or.inl ⟨rfl, rfl⟩) (by omega) hpos]
  simp

/-! ## Duration parsing: general lemmas for the three accepted encodings -/

theorem dropWhile_isSpace_of_no_space (cs : List Char)
    (h : ∀ c ∈ cs, isSpaceChar c = false) : cs.dropWhile isSpaceChar = cs := by
  cases cs with
  | nil => rfl
  | cons c l => simp [List.dropWhile_cons, h c (List.mem_cons_self c l)]

theorem trimChars_of_no_space (cs : List Char)
    (h : ∀ c ∈ cs, isSpaceChar c = false) : trimChars cs = cs := by
  rw [trimChars, dropWhile_isSpace_of_no_space cs h,
    dropWhile_isSpace_of_no_space cs.reverse (fun c hc => h c (List.mem_reverse.mp hc)),
    List.reverse_reverse]

theorem no_space_of_digits (cs : List Char) (h : cs.all isDigitChar = true) :
    ∀ c ∈ cs, isSpaceChar c = false := fun c hc =>
  (isDigitChar_facts (List.all_eq_true.mp h c hc)).2.2.1

/-- The plain-seconds branch of `parseDuration`, for every rendered value. -/
theorem parseDuration_decimal (n : Nat) : parseDuration (natRepr n) = .int n := by
  have hall := natRepr_data_all_digits n
  have hne := natRepr_data_ne_nil n
  rw [parseDuration, trimChars_of_no_space _ (no_space_of_digits _ hall)]
  rw [if_pos]
  · rw [natVal_natRepr]
  · simp only [Bool.and_eq_true, Bool.not_eq_true', List.isEmpty_eq_false]
    exact ⟨hne, hall⟩

theorem splitChars_of_no_sep (sep : Char) :
    ∀ cs : List Char, (∀ c ∈ cs, c ≠ sep) → splitChars sep cs = [cs]
  | [], _ => rfl
  | c :: cs, h => by
    rw [splitChars, if_neg (h c (List.mem_cons_self c cs)),
      splitChars_of_no_sep sep cs (fun x hx => h x (List.mem_cons_of_mem c hx))]

theorem splitChars_append_sep (sep : Char) :
    ∀ (a rest : List Char), (∀ c ∈ a, c ≠ sep) →
      splitChars sep (a ++ sep :: rest) = a :: splitChars sep rest
  | [], rest, _ => by simp [splitChars]
  | c :: a, rest, h => by
    rw [List.cons_append, splitChars, if_neg (h c (List.mem_cons_self c a)),
      splitChars_append_sep sep a rest (fun x hx => h x (List.mem_cons_of_mem c hx))]

theorem no_colon_of_digits (cs : List Char) (h : cs.all isDigitChar = true) :
    ∀ c ∈ cs, c ≠ ':' := fun c hc =>
  (isDigitChar_facts (List.all_eq_true.mp h c hc)).2.2.2

/-- `Number(s)` on a non-empty all-digit string is its decimal value. -/
theorem jsStringToNumber_digits (cs : List Char) (hne : cs ≠ [])
    (h : cs.all isDigitChar = true) : jsStringToNumber cs = .int (natVal cs) := by
  obtain ⟨c, l, rfl⟩ := List.exists_cons_of_ne_nil hne
  have hc : isDigitChar c = true := by
    rw [List.all_cons, Bool.and_eq_true] at h
    exact h.1
  obtain ⟨hm, hp, _, _⟩ := isDigitChar_facts hc
  rw [jsStringToNumber]
  simp only [trimChars_of_no_space _ (no_space_of_digits _ h)]
  rw [if_neg (by simp), if_neg hm, if_neg hp, if_pos h]

theorem natRepr_all_digits' (n : Nat) : ((natRepr n).data).all isDigitChar = true :=
  natRepr_data_all_digits n

/-- The `MM:SS` branch of `parseDuration`, for every rendered pair. -/
theorem parseDuration_mmss (m s : Nat) :
    parseDuration (natRepr m ++ ":" ++ natRepr s) =
      .int ((m : Int) * 60 + (s : Int)) := by
  have hdata : (natRepr m ++ ":" ++ natRepr s).data =
      (natRepr m).data ++ ':' :: (natRepr s).data := by
    simp [String.data_append]
  have hmall := natRepr_data_all_digits m
  have hsall := natRepr_data_all_digits s
  have hnospace : ∀ c ∈ (natRepr m).data ++ ':' :: (natRepr s).data, isSpaceChar c = false := by
    intro c hc
    rcases List.mem_append.mp hc with h | h
    · exact no_space_of_digits _ hmall c h
    · rcases List.mem_cons.mp h with rfl | h
      · decide
      · exact no_space_of_digits _ hsall c h
  have hnotall : ¬ ((!((natRepr m).data ++ ':' :: (natRepr s).data).isEmpty &&
      ((natRepr m).data ++ ':' :: (natRepr s).data).all isDigitChar) = true) := by
    simp only [Bool.and_eq_true, List.all_eq_true]
    rintro ⟨-, hall⟩
    have : isDigitChar ':' = true := hall ':' (by simp)
    cases this
  rw [parseDuration, hdata, trimChars_of_no_space _ hnospace, if_neg hnotall,
    splitChars_append_sep ':' _ _ (no_colon_of_digits _ hmall),
    splitChars_of_no_sep ':' _ (no_colon_of_digits _ hsall)]
  simp only [List.map_cons, List.map_nil,
    jsStringToNumber_digits _ (natRepr_data_ne_nil m) hmall,
    jsStringToNumber_digits _ (natRepr_data_ne_nil s) hsall,
    natVal_natRepr]
  rfl

/-- The `HH:MM:SS` branch of `parseDuration`, for every rendered triple. -/
theorem parseDuration_hhmmss (h m s : Nat) :
    parseDuration (natRepr h ++ ":" ++ natRepr m ++ ":" ++ natRepr s) =
      .int ((h : Int) * 3600 + (m : Int) * 60 + (s : Int)) := by
  have hdata : (natRepr h ++ ":" ++ natRepr m ++ ":" ++ natRepr s).data =
      (natRepr h).data ++ ':' :: ((natRepr m).data ++ ':' :: (natRepr s).data) := by
    simp [String.data_append]
  have hhall := natRepr_data_all_digits h
  have hmall := natRepr_data_all_digits m
  have hsall := natRepr_data_all_digits s
  have hnospace : ∀ c ∈ (natRepr h).data ++ ':' :: ((natRepr m).data ++ ':' :: (natRepr s).data),
      isSpaceChar c = false := by
    intro c hc
    rcases List.mem_append.mp hc with hx | hx
    · exact no_space_of_digits _ hhall c hx
    · rcases List.mem_cons.mp hx with rfl | hx
      · decide
      · rcases List.mem_append.mp hx with hy | hy
        · exact no_space_of_digits _ hmall c hy
        · rcases List.mem_cons.mp hy with rfl | hy
          · decide
          · exact no_space_of_digits _ hsall c hy
  have hnotall : ¬ ((!((natRepr h).data ++ ':' ::
        ((natRepr m).data ++ ':' :: (natRepr s).data)).isEmpty &&
      ((natRepr h).data ++ ':' ::
        ((natRepr m).data ++ ':' :: (natRepr s).data)).all isDigitChar) = true) := by
    simp only [Bool.and_eq_true, List.all_eq_true]
    rintro ⟨-, hall⟩
    have : isDigitChar ':' = true := hall ':' (by simp)
    cases this
  rw [parseDuration, hdata, trimChars_of_no_space _ hnospace, if_neg hnotall,
    splitChars_append_sep ':' _ _ (no_colon_of_digits _ hhall),
    splitChars_append_sep ':' _ _ (no_colon_of_digits _ hmall),
    splitChars_of_no_sep ':' _ (no_colon_of_digits _ hsall)]
  simp only [List.map_cons, List.map_nil,
    jsStringToNumber_digits _ (natRepr_data_ne_nil h) hhall,
    jsStringToNumber_digits _ (natRepr_data_ne_nil m) hmall,
    jsStringToNumber_digits _ (natRepr_data_ne_nil s) hsall,
    natVal_natRepr]
  rfl

/-! ## Concrete fixtures (the spec's three-episode scenario and variants) -/

/-- An episode with the given guid and published time. -/
def exEpisode (g p : String) : PodcastEpisode :=
  { guid := g, title := g, description := none,
    audioUrl := "https://example.com/" ++ g ++ ".mp3",
    imageUrl := none, publishedAt := some p, duration := none }

/-- The spec's three-episode feed, newest first (`ep-3`, `ep-2`, `ep-1`). -/
def exFeed : PodcastFeed :=
  { url := "https://example.com/feed.xml", title := "Test Podcast", description := none,
    imageUrl := none,
    episodes := [exEpisode "ep-3" "2024-07-03T12:00:00.000Z",
                 exEpisode "ep-2" "2024-07-02T12:00:00.000Z",
                 exEpisode "ep-1" "2024-07-01T12:00:00.000Z"] }

/-- A network oracle always serving `exFeed`. -/
def exNet : PodcastNet := fun _ => .ok exFeed

/-- A two-episode feed listed oldest first in document order. -/
def exFeedAsc : PodcastFeed :=
  { url := "https://example.com/asc.xml", title := "Ascending Podcast", description := none,
    imageUrl := none,
    episodes := [exEpisode "ep-1" "2024-07-01T12:00:00.000Z",
                 exEpisode "ep-2" "2024-07-02T12:00:00.000Z"] }

/-- A network oracle always serving `exFeedAsc`. -/
def exNetAsc : PodcastNet := fun _ => .ok exFeedAsc

/-- A YouTube playlist item with the given video id and published time. -/
def exYtItem (v p : String) : YtPlaylistItem :=
  { itemId := "pli-" ++ v
    snippet := { title := v, description := "", thumbnails := ⟨none, none, none⟩,
                 channelTitle := "Ch", publishedAt := p, resourceVideoId := v }
    contentDetails := some ⟨v, p⟩ }

/-! ## The claims -/

/-- C2: for every adapter whose `isUpdateSource` flag is `false` — and for
`SpotifySource` in particular — `checkForUpdates` fails with the
unsupported-operation error for all arguments, never reaching the
adapter-specific routine and never returning a result. -/
theorem C2_unsupported_gate :
    (∀ (α : Type) (displayName : String) (fetchUpdatesSince : Except String α),
      checkForUpdatesGate false displayName fetchUpdatesSince =
        .error (displayName ++ " does not support update polling")) ∧
    ∀ collectionId lastSeenItemId : String,
      spotifyCheckForUpdates collectionId lastSeenItemId =
        .error "Spotify does not support update polling" :=
  ⟨fun _ _ _ => rfl, fun _ _ => rfl⟩

/-- C7: `parseDuration` normalizes the three accepted textual encodings to
integer seconds: the spec's three examples, and in general every rendered
decimal-seconds, `MM:SS` and `HH:MM:SS` string. -/
theorem C7_duration_encodings :
    parseDuration "3600" = .int 3600 ∧
    parseDuration "45:30" = .int 2730 ∧
    parseDuration "1:30:00" = .int 5400 ∧
    (∀ n : Nat, parseDuration (natRepr n) = .int n) ∧
    (∀ m s : Nat, parseDuration (natRepr m ++ ":" ++ natRepr s) =
      .int ((m : Int) * 60 + (s : Int))) ∧
    (∀ h m s : Nat, parseDuration (natRepr h ++ ":" ++ natRepr m ++ ":" ++ natRepr s) =
      .int ((h : Int) * 3600 + (m : Int) * 60 + (s : Int))) :=
  ⟨by decide, by decide, by decide, parseDuration_decimal, parseDuration_mmss,
    parseDuration_hhmmss⟩

/-- An RSS `<item>` whose duration text is present but matches none of the
three accepted encodings. -/
def exRssItemBadDuration : RssItem :=
  { enclosureUrl := some "https://example.com/audio.mp3", guid := some "ep-x",
    title := some "Episode X", description := none, pubDate := none,
    imageHref := none, durationText := some "abc" }

/-- C6 counterexample: a present but unparseable duration text (`"abc"`)
yields a *present* duration equal to `0` — not an absent duration as the
claim states. -/
theorem C6_counterexample :
    (parseRssItem id exRssItemBadDuration).bind (fun ep => ep.duration) =
      some (.int 0) := by decide

/-- C6 as amended: a parsed episode whose duration text is present and
non-empty always carries a *present* duration, namely `parseDuration` of the
text — which is `0` (not absent) for texts like `"abc"` that match none of
the three encodings; the literal `"0"` is valid and also yields `0`. -/
theorem C6_amended :
    (∀ (dateToIso : String → String) (item : RssItem) (ep : PodcastEpisode) (s : String),
      item.durationText = some s → s ≠ "" →
      parseRssItem dateToIso item = some ep →
      ep.duration = some (parseDuration s)) ∧
    parseDuration "0" = .int 0 ∧ parseDuration "abc" = .int 0 := by
  refine ⟨?_, by decide, by decide⟩
  intro dateToIso item ep s hs hne hp
  cases henc : item.enclosureUrl with
  | none =>
    simp only [parseRssItem, henc] at hp
    exact Option.noConfusion hp
  | some audioUrl =>
    simp only [parseRssItem, henc] at hp
    by_cases hau : audioUrl = ""
    · rw [if_pos hau] at hp
      cases hp
    · rw [if_neg hau] at hp
      have hep := Option.some.inj hp
      rw [← hep]
      simp [hs, hne]

/-- The episode parsed from `exRssItemBadDuration`. -/
def exEpisodeBad : PodcastEpisode :=
  { guid := "ep-x", title := "Episode X", description := none,
    audioUrl := "https://example.com/audio.mp3", imageUrl := none,
    publishedAt := none, duration := some (.int 0) }

/-- C6 witness: the amended statement evaluated on `exRssItemBadDuration`. -/
theorem C6_witness :
    (parseRssItem id exRssItemBadDuration).map (fun ep => ep.duration) =
      some (some (parseDuration "abc")) := by
  have h := C6_amended.1 id exRssItemBadDuration exEpisodeBad "abc" rfl (by decide) (by decide)
  rw [show parseRssItem id exRssItemBadDuration = some exEpisodeBad from by decide,
    Option.map_some', h]

/-- C1 counterexample: with the spec's three-episode feed and a marker that
occurs nowhere in it, `PodcastSource.checkForUpdates` returns all three
episodes (oldest-first), not the empty sequence. -/
theorem C1_counterexample :
    exFeed.episodes.all (fun ep => ep.guid != "nonexistent-id") = true ∧
    (podcastCheckForUpdates exNet ⟨[]⟩ "https://example.com/feed.xml"
        "nonexistent-id").map (fun r => r.1.map (fun i => i.id)) =
      .ok ["ep-1", "ep-2", "ep-3"] := by decide

/-- C1 as amended: when `lastSeenItemId` occurs nowhere among the inspected
items, `checkForUpdates` returns *all* the inspected items oldest-first (the
whole refreshed episode list for `PodcastSource`; every item of the walked
listing for `YouTubeSource`), rather than the empty sequence. -/
theorem C1_amended :
    (∀ (net : PodcastNet) (st : PodcastState) (url marker : String) (feed : PodcastFeed),
      net url = .ok feed →
      feed.episodes.all (fun ep => ep.guid != marker) = true →
      podcastCheckForUpdates net st url marker =
        .ok ((feed.episodes.map (fun ep => mapEpisode ep feed)).reverse,
             ⟨mapSet st.feeds url feed⟩)) ∧
    ∀ (u : String) (pages : List (List YtPlaylistItem)) (total : Int)
      (cid marker : String) (st : YtState),
      u ≠ "" → mapGet st.uploadsPlaylistCache cid = some u →
      (pages.flatten.map mapPlaylistItem).all (fun i => i.id != marker) = true →
      ytCheckForUpdates (chainApi u pages total) st cid marker (pages.length + 1) =
        .ok (some ((pages.flatten.map mapPlaylistItem).reverse, st)) := by
  constructor
  · intro net st url marker feed hnet hall
    rw [podcastCheckForUpdates_ok net st url marker feed hnet,
      takeWhile_eq_self_of_all _ _ hall]
  · intro u pages total cid marker st hu hcache hall
    rw [ytCheckForUpdates_chain u hu pages total cid marker st hcache (pages.length + 1)
        (by omega) (by omega),
      takeWhile_eq_self_of_all _ _ hall]

/-- C1 witness: the amended statement evaluated on the three-episode feed
with an absent marker. -/
theorem C1_witness :
    podcastCheckForUpdates exNet ⟨[]⟩ "https://example.com/feed.xml" "zzz" =
      .ok ((exFeed.episodes.map (fun ep => mapEpisode ep exFeed)).reverse,
           ⟨mapSet [] "https://example.com/feed.xml" exFeed⟩) :=
  C1_amended.1 exNet ⟨[]⟩ "https://example.com/feed.xml" "zzz" exFeed rfl (by decide)

/-- With enough marker-free pages, the walk is still running after `fuel`
iterations: the loop of `YouTubeSource.fetchUpdatesSince` has no page cap of
its own. -/
theorem ytUpdatesWalk_chain_low (u : String) (hu : u ≠ "")
    (pages : List (List YtPlaylistItem)) (total : Int) (cid marker : String) :
    ∀ (fuel n : Nat) (st : YtState) (cur : Option String) (acc : List MediaItem),
      mapGet st.uploadsPlaylistCache cid = some u →
      cursorDenotes cur n →
      ((pages.drop n).flatten.map mapPlaylistItem).all (fun i => i.id != marker) = true →
      n + fuel < pages.length →
      ytUpdatesWalk (chainApi u pages total) cid marker fuel st cur acc = .ok none := by
  intro fuel
  induction fuel with
  | zero =>
    intro n st cur acc _ _ _ _
    rfl
  | succ fuel ih =>
    intro n st cur acc hcache hcur hall hlen
    rw [ytUpdatesWalk_succ, ytGetCollectionItems_chain u hu pages total st cid hcache n cur hcur]
    have hdecomp : (pages.drop n).flatten.map mapPlaylistItem =
        ((pages.drop n).headD []).map mapPlaylistItem ++
          (pages.drop (n + 1)).flatten.map mapPlaylistItem := by
      rw [flatten_drop_decompose, List.map_append]
    rw [hdecomp, List.all_append, Bool.and_eq_true] at hall
    set pageItems := ((pages.drop n).headD []).map mapPlaylistItem with hpi
    simp only [scanForMarker_eq]
    have hfound' : pageItems.any (fun i => i.id == marker) = false := by
      rw [List.any_eq_false]
      intro x hx
      have := List.all_eq_true.mp hall.1 x hx
      simp only [bne] at this
      simpa using this
    simp only [hfound', Bool.false_eq_true, if_false]
    rw [if_pos (by omega : n + 1 < pages.length)]
    exact ih (n + 1) st (some (natRepr (n + 1)))
      (acc ++ pageItems.takeWhile (fun i => i.id != marker)) hcache (Or.inr rfl)
      hall.2 (by omega)

/-- C4 counterexample: a one-page listing not containing the marker is
exhausted by the walk, and `checkForUpdates` returns that page's item, not
the empty sequence the claim requires on cap/listing exhaustion. -/
theorem C4_counterexample :
    (ytCheckForUpdates
        (chainApi "UU1" [[exYtItem "vid-1" "2024-08-01T00:00:00Z"]] 1)
        ⟨[("UC1", "UU1")]⟩ "UC1" "nonexistent-id" 2).map
      (fun r => r.map (fun p => p.1.map (fun i => i.id))) = .ok (some ["vid-1"]) := by
  decide

/-- C4 as amended: the walk of `YouTubeSource.fetchUpdatesSince` has *no*
maximum page count — for every candidate cap `n` there is a listing
(`n + 1` marker-free pages) that keeps it running past `n` pages — and when
the listing is exhausted without encountering `lastSeenItemId`, the call
returns *all* accumulated items oldest-first, not the empty sequence. -/
theorem C4_amended :
    ∀ (n : Nat) (u : String) (pages : List (List YtPlaylistItem)) (total : Int)
      (cid marker : String) (st : YtState),
      u ≠ "" → mapGet st.uploadsPlaylistCache cid = some u →
      pages.length = n + 1 →
      (pages.flatten.map mapPlaylistItem).all (fun i => i.id != marker) = true →
      ytCheckForUpdates (chainApi u pages total) st cid marker n = .ok none ∧
      ytCheckForUpdates (chainApi u pages total) st cid marker (n + 1) =
        .ok (some ((pages.flatten.map mapPlaylistItem).reverse, st)) := by
  intro n u pages total cid marker st hu hcache hlen hall
  constructor
  · rw [ytCheckForUpdates, checkForUpdatesGate, ytFetchUpdatesSince,
      ytUpdatesWalk_chain_low u hu pages total cid marker n 0 st none []
        hcache (Or.inl ⟨rfl, rfl⟩) (by rw [List.drop_zero]; exact hall) (by omega)]
    rfl
  · rw [ytCheckForUpdates_chain u hu pages total cid marker st hcache (n + 1)
        (by omega) (by omega),
      takeWhile_eq_self_of_all _ _ hall]

/-- C4 witness: the amended statement evaluated on a two-page marker-free
listing with candidate cap `1`. -/
theorem C4_witness :
    ytCheckForUpdates
        (chainApi "UU1" [[exYtItem "vid-2" "2024-08-02T00:00:00Z"],
          [exYtItem "vid-1" "2024-08-01T00:00:00Z"]] 2)
        ⟨[("UC1", "UU1")]⟩ "UC1" "zzz" 1 = .ok none :=
  (C4_amended 1 "UU1"
    [[exYtItem "vid-2" "2024-08-02T00:00:00Z"], [exYtItem "vid-1" "2024-08-01T00:00:00Z"]] 2
    "UC1" "zzz" ⟨[("UC1", "UU1")]⟩ (by decide) (by decide) (by decide) (by decide)).1

/-! ## Stability of the uploads-playlist resolution (for idempotence) -/

/-- What a successful cache-miss resolution did: it cached the head uploads
id, and resolving again (from any state) reproduces the same id. -/
theorem resolveUploadsPlaylistId_spec (api : YtApi) (st₀ : YtState) (cid u : String)
    (st' : YtState) (hr : resolveUploadsPlaylistId api st₀ cid = .ok (u, st')) :
    st' = ⟨mapSet st₀.uploadsPlaylistCache cid u⟩ ∧
    ∀ st₁ : YtState, resolveUploadsPlaylistId api st₁ cid =
      .ok (u, ⟨mapSet st₁.uploadsPlaylistCache cid u⟩) := by
  rw [resolveUploadsPlaylistId] at hr
  cases hch : api.channels cid with
  | error e =>
    simp only [hch] at hr
    exact Except.noConfusion hr
  | ok data =>
    simp only [hch] at hr
    cases hdu : data.uploads with
    | nil =>
      simp only [hdu] at hr
      exact Except.noConfusion hr
    | cons u₀ rest =>
      simp only [hdu, Except.ok.injEq, Prod.mk.injEq] at hr
      obtain ⟨hu₀, hst⟩ := hr
      subst hu₀
      refine ⟨hst.symm, fun st₁ => ?_⟩
      rw [resolveUploadsPlaylistId]
      simp only [hch, hdu]

/-- Once a resolution has produced `(u, st')`, resolving again from `st'`
reproduces `(u, st')`: the cache either hits, or (for a falsy cached value)
the same channels response is re-cached idempotently. -/
theorem getUploadsPlaylistId_stable (api : YtApi) (st : YtState) (cid u : String)
    (st' : YtState) (h : getUploadsPlaylistId api st cid = .ok (u, st')) :
    getUploadsPlaylistId api st' cid = .ok (u, st') := by
  rw [getUploadsPlaylistId] at h
  cases hc : mapGet st.uploadsPlaylistCache cid with
  | some cached =>
    simp only [hc] at h
    by_cases hce : cached = ""
    · rw [if_pos hce] at h
      obtain ⟨hst', hresolve⟩ := resolveUploadsPlaylistId_spec api st cid u st' h
      have hget : mapGet st'.uploadsPlaylistCache cid = some u := by
        rw [hst']
        exact mapGet_mapSet_self _ _ _
      rw [getUploadsPlaylistId]
      simp only [hget]
      by_cases hue : u = ""
      · rw [if_pos hue, hresolve st']
        have hid : (⟨mapSet st'.uploadsPlaylistCache cid u⟩ : YtState) = st' := by
          rw [hst']
          simp [mapSet_mapSet_self]
        rw [hid]
      · rw [if_neg hue]
    · rw [if_neg hce] at h
      simp only [Except.ok.injEq, Prod.mk.injEq] at h
      obtain ⟨hcu, hst⟩ := h
      subst hst
      rw [getUploadsPlaylistId]
      simp only [hc]
      rw [if_neg hce, hcu]
  | none =>
    simp only [hc] at h
    obtain ⟨hst', hresolve⟩ := resolveUploadsPlaylistId_spec api st cid u st' h
    have hget : mapGet st'.uploadsPlaylistCache cid = some u := by
      rw [hst']
      exact mapGet_mapSet_self _ _ _
    rw [getUploadsPlaylistId]
    simp only [hget]
    by_cases hue : u = ""
    · rw [if_pos hue, hresolve st']
      have hid : (⟨mapSet st'.uploadsPlaylistCache cid u⟩ : YtState) = st' := by
        rw [hst']
        simp [mapSet_mapSet_self]
      rw [hid]
    · rw [if_neg hue]

/-- Replaying `getCollectionItems` from the state it produced returns the
same page and the same state. -/
theorem ytGetCollectionItems_stable (api : YtApi) (st : YtState) (cid : String)
    (options : Option FetchMediaOptions) (page : PaginatedResult MediaItem) (st₁ : YtState)
    (h : ytGetCollectionItems api st cid options = .ok (page, st₁)) :
    ytGetCollectionItems api st₁ cid options = .ok (page, st₁) := by
  rw [ytGetCollectionItems] at h ⊢
  cases hres : getUploadsPlaylistId api st cid with
  | error e =>
    simp only [hres] at h
    exact Except.noConfusion h
  | ok pr =>
    obtain ⟨u, st₂⟩ := pr
    simp only [hres] at h
    cases hpl : api.playlistItems u ((options.bind (fun o => o.limit)).getD 20)
        (match options.bind (fun o => o.cursor) with
          | some c => if c = "" then none else some c
          | none => none) with
    | error e =>
      simp only [hpl] at h
      exact Except.noConfusion h
    | ok data =>
      simp only [hpl, Except.ok.injEq, Prod.mk.injEq] at h
      obtain ⟨hpage, hst⟩ := h
      subst hst
      simp only [getUploadsPlaylistId_stable api st cid u st₂ hres, hpl,
        Except.ok.injEq, Prod.mk.injEq]
      exact ⟨hpage, trivial⟩

/-- The gate is transparent for update-capable adapters (flag `true`). -/
theorem ytCheckForUpdates_eq (api : YtApi) (st : YtState) (cid marker : String) (fuel : Nat) :
    ytCheckForUpdates api st cid marker fuel = ytFetchUpdatesSince api st cid marker fuel :=
  rfl

/-- The gate is transparent for update-capable adapters (flag `true`). -/
theorem podcastCheckForUpdates_eq (net : PodcastNet) (st : PodcastState) (url marker : String) :
    podcastCheckForUpdates net st url marker = podcastFetchUpdatesSince net st url marker :=
  rfl

/-- A successful page fetch leaves the produced state resolution-stable. -/
theorem ytGetCollectionItems_resolved (api : YtApi) (st : YtState) (cid : String)
    (options : Option FetchMediaOptions) (page : PaginatedResult MediaItem) (st₁ : YtState)
    (h : ytGetCollectionItems api st cid options = .ok (page, st₁)) :
    ∃ u, getUploadsPlaylistId api st₁ cid = .ok (u, st₁) := by
  rw [ytGetCollectionItems] at h
  cases hres : getUploadsPlaylistId api st cid with
  | error e =>
    simp only [hres] at h
    exact Except.noConfusion h
  | ok pr =>
    obtain ⟨u, st₂⟩ := pr
    simp only [hres] at h
    cases hpl : api.playlistItems u ((options.bind (fun o => o.limit)).getD 20)
        (match options.bind (fun o => o.cursor) with
          | some c => if c = "" then none else some c
          | none => none) with
    | error e =>
      simp only [hpl] at h
      exact Except.noConfusion h
    | ok data =>
      simp only [hpl, Except.ok.injEq, Prod.mk.injEq] at h
      obtain ⟨-, hst⟩ := h
      subst hst
      exact ⟨u, getUploadsPlaylistId_stable api st cid u st₂ hres⟩

/-- From a resolution-stable state, a page fetch does not change the state. -/
theorem ytGetCollectionItems_state_of_resolved (api : YtApi) (cid u : String)
    (st₁ : YtState) (hres : getUploadsPlaylistId api st₁ cid = .ok (u, st₁))
    (options : Option FetchMediaOptions) (page : PaginatedResult MediaItem) (st₂ : YtState)
    (h : ytGetCollectionItems api st₁ cid options = .ok (page, st₂)) : st₂ = st₁ := by
  rw [ytGetCollectionItems] at h
  simp only [hres] at h
  cases hpl : api.playlistItems u ((options.bind (fun o => o.limit)).getD 20)
      (match options.bind (fun o => o.cursor) with
        | some c => if c = "" then none else some c
        | none => none) with
  | error e =>
    simp only [hpl] at h
    exact Except.noConfusion h
  | ok data =>
    simp only [hpl, Except.ok.injEq, Prod.mk.injEq] at h
    exact h.2.symm

/-- From a resolution-stable state, the whole walk keeps the state fixed. -/
theorem ytUpdatesWalk_state_stable (api : YtApi) (cid marker u : String) (st₁ : YtState)
    (hres : getUploadsPlaylistId api st₁ cid = .ok (u, st₁)) :
    ∀ (fuel : Nat) (cur : Option String) (acc r : List MediaItem) (st₂ : YtState),
      ytUpdatesWalk api cid marker fuel st₁ cur acc = .ok (some (r, st₂)) → st₂ = st₁ := by
  intro fuel
  induction fuel with
  | zero =>
    intro cur acc r st₂ h
    rw [ytUpdatesWalk] at h
    exact Option.noConfusion (Except.ok.inj h)
  | succ fuel ih =>
    intro cur acc r st₂ h
    rw [ytUpdatesWalk_succ] at h
    cases hcoll : ytGetCollectionItems api st₁ cid (some ⟨some 20, cur⟩) with
    | error e =>
      simp only [hcoll] at h
      exact Except.noConfusion h
    | ok pr =>
      obtain ⟨page, st₃⟩ := pr
      have hst₃ : st₃ = st₁ :=
        ytGetCollectionItems_state_of_resolved api cid u st₁ hres _ page st₃ hcoll
      subst hst₃
      simp only [hcoll] at h
      by_cases hfd : (scanForMarker marker page.items).2 = true
      · rw [if_pos hfd] at h
        have := Option.some.inj (Except.ok.inj h)
        exact ((Prod.mk.injEq _ _ _ _).mp this).2.symm
      · rw [if_neg hfd] at h
        cases hnc : page.nextCursor with
        | some c =>
          simp only [hnc] at h
          exact ih (some c) (acc ++ (scanForMarker marker page.items).1) r st₂ h
        | none =>
          simp only [hnc] at h
          have := Option.some.inj (Except.ok.inj h)
          exact ((Prod.mk.injEq _ _ _ _).mp this).2.symm

/-- Replaying the walk from the state it produced yields the same result. -/
theorem ytUpdatesWalk_replay (api : YtApi) (cid marker : String) :
    ∀ (fuel : Nat) (st : YtState) (cur : Option String) (acc r : List MediaItem)
      (st' : YtState),
      ytUpdatesWalk api cid marker fuel st cur acc = .ok (some (r, st')) →
      ytUpdatesWalk api cid marker fuel st' cur acc = .ok (some (r, st')) := by
  intro fuel
  cases fuel with
  | zero =>
    intro st cur acc r st' h
    rw [ytUpdatesWalk] at h
    exact absurd (Except.ok.inj h) (fun hh => Option.noConfusion hh)
  | succ fuel =>
    intro st cur acc r st' h
    rw [ytUpdatesWalk_succ] at h ⊢
    cases hcoll : ytGetCollectionItems api st cid (some ⟨some 20, cur⟩) with
    | error e =>
      simp only [hcoll] at h
      exact Except.noConfusion h
    | ok pr =>
      obtain ⟨page, st₁⟩ := pr
      simp only [hcoll] at h
      obtain ⟨u, hres₁⟩ := ytGetCollectionItems_resolved api st cid _ page st₁ hcoll
      have hst' : st' = st₁ := by
        by_cases hfd : (scanForMarker marker page.items).2 = true
        · rw [if_pos hfd] at h
          have := Option.some.inj (Except.ok.inj h)
          exact ((Prod.mk.injEq _ _ _ _).mp this).2.symm
        · rw [if_neg hfd] at h
          cases hnc : page.nextCursor with
          | some c =>
            simp only [hnc] at h
            exact ytUpdatesWalk_state_stable api cid marker u st₁ hres₁ fuel (some c) _ r st' h
          | none =>
            simp only [hnc] at h
            have := Option.some.inj (Except.ok.inj h)
            exact ((Prod.mk.injEq _ _ _ _).mp this).2.symm
      rw [hst'] at h ⊢
      simp only [ytGetCollectionItems_stable api st cid _ page st₁ hcoll]
      exact h

/-- C5 counterexample: with the three-episode feed and the same marker
`"ep-2"` for both calls (no new content between them), the second call
returns `[ep-3]` again — not the empty sequence.  (The state shown for the
second call is exactly the state produced by the first call.) -/
theorem C5_counterexample :
    (podcastCheckForUpdates exNet ⟨[]⟩ "https://example.com/feed.xml" "ep-2").map
        (fun r => (r.1.map (fun i => i.id), r.2)) =
      .ok (["ep-3"], ⟨[("https://example.com/feed.xml", exFeed)]⟩) ∧
    (podcastCheckForUpdates exNet ⟨[("https://example.com/feed.xml", exFeed)]⟩
        "https://example.com/feed.xml" "ep-2").map (fun r => r.1.map (fun i => i.id)) =
      .ok ["ep-3"] ∧
    (["ep-3"] : List String) ≠ [] := by
  refine ⟨by decide, by decide, by decide⟩

/-- C5 as amended: with unchanged content (the same network oracle) and the
same `collectionId` and `lastSeenItemId`, an immediately repeated
`checkForUpdates` returns *the same* sequence and state as the first call —
so it is empty the second time only when it was empty the first time (in
particular when `lastSeenItemId` is the newest item's id). -/
theorem C5_amended :
    (∀ (net : PodcastNet) (st : PodcastState) (url marker : String)
        (items : List MediaItem) (st' : PodcastState),
      podcastCheckForUpdates net st url marker = .ok (items, st') →
      podcastCheckForUpdates net st' url marker = .ok (items, st')) ∧
    ∀ (api : YtApi) (st : YtState) (cid marker : String) (fuel : Nat)
      (items : List MediaItem) (st' : YtState),
      ytCheckForUpdates api st cid marker fuel = .ok (some (items, st')) →
      ytCheckForUpdates api st' cid marker fuel = .ok (some (items, st')) := by
  constructor
  · intro net st url marker items st' h
    cases hnet : net url with
    | error e =>
      rw [podcastCheckForUpdates_eq, podcastFetchUpdatesSince, refreshFeed] at h
      simp only [hnet] at h
      exact Except.noConfusion h
    | ok feed =>
      rw [podcastCheckForUpdates_ok net st url marker feed hnet] at h
      have hinj := Except.ok.inj h
      have hitems : _ = items := ((Prod.mk.injEq _ _ _ _).mp hinj).1
      have hst : (⟨mapSet st.feeds url feed⟩ : PodcastState) = st' :=
        ((Prod.mk.injEq _ _ _ _).mp hinj).2
      rw [podcastCheckForUpdates_ok net st' url marker feed hnet, hitems, ← hst]
      simp [mapSet_mapSet_self]
  · intro api st cid marker fuel items st' h
    rw [ytCheckForUpdates_eq, ytFetchUpdatesSince] at h ⊢
    cases hwalk : ytUpdatesWalk api cid marker fuel st none [] with
    | error e =>
      simp only [hwalk] at h
      exact Except.noConfusion h
    | ok r =>
      cases r with
      | none =>
        simp only [hwalk] at h
        exact absurd (Except.ok.inj h) (fun hh => Option.noConfusion hh)
      | some pr =>
        obtain ⟨allNew, st₁⟩ := pr
        simp only [hwalk] at h
        have hinj := Option.some.inj (Except.ok.inj h)
        have hitems : allNew.reverse = items := ((Prod.mk.injEq _ _ _ _).mp hinj).1
        have hst : st₁ = st' := ((Prod.mk.injEq _ _ _ _).mp hinj).2
        rw [hst] at hwalk
        have hreplay := ytUpdatesWalk_replay api cid marker fuel st none [] allNew st' hwalk
        simp only [hreplay, hitems]

/-- C5 witness: the amended statement evaluated on the three-episode feed
with marker `"ep-2"` (second call reproduces `[ep-3]`). -/
theorem C5_witness :
    podcastCheckForUpdates exNet ⟨[("https://example.com/feed.xml", exFeed)]⟩
        "https://example.com/feed.xml" "ep-2" =
      .ok ([mapEpisode (exEpisode "ep-3" "2024-07-03T12:00:00.000Z") exFeed],
           ⟨[("https://example.com/feed.xml", exFeed)]⟩) :=
  C5_amended.1 exNet ⟨[]⟩ "https://example.com/feed.xml" "ep-2"
    [mapEpisode (exEpisode "ep-3" "2024-07-03T12:00:00.000Z") exFeed]
    ⟨[("https://example.com/feed.xml", exFeed)]⟩ (by decide)

/-- Lexicographic order on character lists (the standard string order, under
which ISO-8601 timestamps compare chronologically). -/
def charListLeB : List Char → List Char → Bool
  | [], _ => true
  | _ :: _, [] => false
  | a :: xs, b :: ys =>
    if a.toNat < b.toNat then true
    else if b.toNat < a.toNat then false
    else charListLeB xs ys

/-- `publishedAt` comparison used in the ordering claims: both timestamps
present, the first not later than the second. -/
def publishedLeB (a b : MediaItem) : Bool :=
  match a.publishedAt, b.publishedAt with
  | some x, some y => charListLeB x.data y.data
  | _, _ => false

/-- Adjacent-pairs check: `q` holds for every consecutive pair. -/
def chainB {α : Type} (q : α → α → Bool) : List α → Bool
  | [] => true
  | [_] => true
  | a :: b :: rest => q a b && chainB q (b :: rest)

theorem chainB_iff_chain' {α : Type} (q : α → α → Bool) :
    ∀ l : List α, chainB q l = true ↔ List.Chain' (fun a b => q a b = true) l
  | [] => by simp [chainB]
  | [a] => by simp [chainB, List.chain'_singleton]
  | a :: b :: rest => by
    rw [chainB, Bool.and_eq_true, List.chain'_cons, chainB_iff_chain' q (b :: rest)]

/-- Oldest-first: each item's `publishedAt` is ≤ the next item's. -/
def oldestFirst (items : List MediaItem) : Prop :=
  chainB publishedLeB items = true

/-- Newest-first: each item's `publishedAt` is ≥ the next item's. -/
def newestFirst (items : List MediaItem) : Prop :=
  chainB (fun a b => publishedLeB b a) items = true

instance oldestFirst.instDecidable (items : List MediaItem) : Decidable (oldestFirst items) :=
  inferInstanceAs (Decidable (_ = true))

instance newestFirst.instDecidable (items : List MediaItem) : Decidable (newestFirst items) :=
  inferInstanceAs (Decidable (_ = true))

/-- The result shape of both update-detection routines — a reversed
`takeWhile` prefix — is oldest-first whenever the listing is newest-first. -/
theorem oldestFirst_reverse_takeWhile (l : List MediaItem) (p : MediaItem → Bool)
    (h : newestFirst l) : oldestFirst ((l.takeWhile p).reverse) := by
  rw [oldestFirst, chainB_iff_chain', List.chain'_reverse]
  rw [newestFirst, chainB_iff_chain'] at h
  exact List.Chain'.prefix h (List.takeWhile_prefix p)

/-- Walk-success characterization under `chainApi`: *whenever* the walk
returns (for any fuel), the accumulated items are the remaining listing's
prefix up to (excluding) the marker. -/
theorem ytUpdatesWalk_chain_of_ok (u : String) (hu : u ≠ "")
    (pages : List (List YtPlaylistItem)) (total : Int) (cid marker : String) :
    ∀ (fuel n : Nat) (st : YtState) (cur : Option String) (acc res : List MediaItem)
      (stf : YtState),
      mapGet st.uploadsPlaylistCache cid = some u →
      cursorDenotes cur n →
      ytUpdatesWalk (chainApi u pages total) cid marker fuel st cur acc = .ok (some (res, stf)) →
      res = acc ++ ((pages.drop n).flatten.map mapPlaylistItem).takeWhile
        (fun i => i.id != marker) := by
  intro fuel
  induction fuel with
  | zero =>
    intro n st cur acc res stf _ _ h
    rw [ytUpdatesWalk] at h
    exact absurd (Except.ok.inj h) (fun hh => Option.noConfusion hh)
  | succ fuel ih =>
    intro n st cur acc res stf hcache hcur h
    rw [ytUpdatesWalk_succ,
      ytGetCollectionItems_chain u hu pages total st cid hcache n cur hcur] at h
    have hdecomp : (pages.drop n).flatten.map mapPlaylistItem =
        ((pages.drop n).headD []).map mapPlaylistItem ++
          (pages.drop (n + 1)).flatten.map mapPlaylistItem := by
      rw [flatten_drop_decompose, List.map_append]
    set pageItems := ((pages.drop n).headD []).map mapPlaylistItem with hpi
    simp only [scanForMarker_eq] at h
    by_cases hfound : pageItems.any (fun i => i.id == marker) = true
    · simp only [hfound, if_true] at h
      have hinj := Option.some.inj (Except.ok.inj h)
      have hres : acc ++ pageItems.takeWhile (fun i => i.id != marker) = res :=
        ((Prod.mk.injEq _ _ _ _).mp hinj).1
      have hex : ∃ x ∈ pageItems, (fun i : MediaItem => i.id != marker) x = false := by
        rcases List.any_eq_true.mp hfound with ⟨x, hx, hxe⟩
        refine ⟨x, hx, ?_⟩
        simp only [bne, Bool.not_eq_false']
        exact hxe
      rw [← hres, hdecomp, takeWhile_append_of_exists_neg _ _ _ hex]
    · have hfound' : pageItems.any (fun i => i.id == marker) = false :=
        Bool.eq_false_iff.mpr hfound
      have hall : ∀ x ∈ pageItems, (fun i : MediaItem => i.id != marker) x = true := by
        intro x hx
        have := List.any_eq_false.mp hfound' x hx
        simp only [bne, Bool.not_eq_true']
        simpa using this
      have htw : pageItems.takeWhile (fun i => i.id != marker) = pageItems :=
        takeWhile_eq_self_of_all _ _ (List.all_eq_true.mpr hall)
      simp only [hfound', Bool.false_eq_true, if_false, htw] at h
      by_cases hmore : n + 1 < pages.length
      · simp only [if_pos hmore] at h
        have hrec := ih (n + 1) st (some (natRepr (n + 1))) (acc ++ pageItems) res stf
          hcache (Or.inr rfl) h
        rw [hrec, hdecomp, List.takeWhile_append_of_pos hall, List.append_assoc]
      · simp only [if_neg hmore] at h
        have hinj := Option.some.inj (Except.ok.inj h)
        have hres : acc ++ pageItems = res := ((Prod.mk.injEq _ _ _ _).mp hinj).1
        have hnil : pages.drop (n + 1) = [] := List.drop_eq_nil_of_le (by omega)
        rw [← hres, hdecomp, hnil]
        simp only [List.flatten_nil, List.map_nil, List.append_nil]
        rw [takeWhile_eq_self_of_all _ _ (List.all_eq_true.mpr hall)]

/-- C3 counterexample: a feed whose episodes are listed oldest-first in
document order produces a `checkForUpdates` result ordered newest-first,
violating the claimed oldest-first ordering (two items, first published
later than the second). -/
theorem C3_counterexample :
    (podcastCheckForUpdates exNetAsc ⟨[]⟩ "https://example.com/asc.xml" "zzz").map
        (fun r => r.1) =
      .ok [mapEpisode (exEpisode "ep-2" "2024-07-02T12:00:00.000Z") exFeedAsc,
           mapEpisode (exEpisode "ep-1" "2024-07-01T12:00:00.000Z") exFeedAsc] ∧
    ¬ oldestFirst
        [mapEpisode (exEpisode "ep-2" "2024-07-02T12:00:00.000Z") exFeedAsc,
         mapEpisode (exEpisode "ep-1" "2024-07-01T12:00:00.000Z") exFeedAsc] := by
  refine ⟨by decide, by decide⟩

/-- C3 as amended: `checkForUpdates` output is oldest-first *provided* the
natively inspected listing is newest-first by `publishedAt` (the code only
reverses the accumulated prefix; it performs no sorting of its own). -/
theorem C3_amended :
    (∀ (net : PodcastNet) (st : PodcastState) (url marker : String) (feed : PodcastFeed)
        (items : List MediaItem) (st' : PodcastState),
      net url = .ok feed →
      newestFirst (feed.episodes.map (fun ep => mapEpisode ep feed)) →
      podcastCheckForUpdates net st url marker = .ok (items, st') →
      oldestFirst items) ∧
    ∀ (u : String) (pages : List (List YtPlaylistItem)) (total : Int) (cid marker : String)
      (st : YtState) (fuel : Nat) (items : List MediaItem) (st' : YtState),
      u ≠ "" → mapGet st.uploadsPlaylistCache cid = some u →
      newestFirst (pages.flatten.map mapPlaylistItem) →
      ytCheckForUpdates (chainApi u pages total) st cid marker fuel = .ok (some (items, st')) →
      oldestFirst items := by
  constructor
  · intro net st url marker feed items st' hnet hdesc h
    rw [podcastCheckForUpdates_ok net st url marker feed hnet] at h
    have hinj := Except.ok.inj h
    have hitems := ((Prod.mk.injEq _ _ _ _).mp hinj).1
    rw [← hitems]
    have heq : (feed.episodes.takeWhile (fun ep => ep.guid != marker)).map
        (fun ep => mapEpisode ep feed) =
        (feed.episodes.map (fun ep => mapEpisode ep feed)).takeWhile
          (fun i => i.id != marker) := by
      rw [List.takeWhile_map]
      rfl
    rw [heq]
    exact oldestFirst_reverse_takeWhile _ _ hdesc
  · intro u pages total cid marker st fuel items st' hu hcache hdesc h
    rw [ytCheckForUpdates_eq, ytFetchUpdatesSince] at h
    cases hwalk : ytUpdatesWalk (chainApi u pages total) cid marker fuel st none [] with
    | error e =>
      simp only [hwalk] at h
      exact absurd h (fun hh => Except.noConfusion hh)
    | ok r =>
      cases r with
      | none =>
        simp only [hwalk] at h
        exact absurd (Except.ok.inj h) (fun hh => Option.noConfusion hh)
      | some pr =>
        obtain ⟨allNew, st₁⟩ := pr
        simp only [hwalk] at h
        have hinj := Option.some.inj (Except.ok.inj h)
        have hitems : allNew.reverse = items := ((Prod.mk.injEq _ _ _ _).mp hinj).1
        have hchar := ytUpdatesWalk_chain_of_ok u hu pages total cid marker fuel 0 st none
          [] allNew st₁ hcache (Or.inl ⟨rfl, rfl⟩) hwalk
        rw [← hitems, hchar]
        simp only [List.nil_append, List.drop_zero]
        exact oldestFirst_reverse_takeWhile _ _ hdesc

/-- C3 witness: the amended statement evaluated on the (newest-first)
three-episode feed with an absent marker: the result is oldest-first. -/
theorem C3_witness :
    oldestFirst
      [mapEpisode (exEpisode "ep-1" "2024-07-01T12:00:00.000Z") exFeed,
       mapEpisode (exEpisode "ep-2" "2024-07-02T12:00:00.000Z") exFeed,
       mapEpisode (exEpisode "ep-3" "2024-07-03T12:00:00.000Z") exFeed] :=
  C3_amended.1 exNet ⟨[]⟩ "https://example.com/feed.xml" "zzz" exFeed
    [mapEpisode (exEpisode "ep-1" "2024-07-01T12:00:00.000Z") exFeed,
     mapEpisode (exEpisode "ep-2" "2024-07-02T12:00:00.000Z") exFeed,
     mapEpisode (exEpisode "ep-3" "2024-07-03T12:00:00.000Z") exFeed]
    ⟨[("https://example.com/feed.xml", exFeed)]⟩ rfl (by decide) (by decide)

/-- C9: a `PodcastSource.checkForUpdates` call refreshes and replaces only
the stored entry of the requested feed URL (it becomes the freshly parsed
feed); the stored entry of every other feed URL is unchanged. -/
theorem C9_refresh_frame :
    ∀ (net : PodcastNet) (st : PodcastState) (url marker : String)
      (items : List MediaItem) (st' : PodcastState),
      podcastCheckForUpdates net st url marker = .ok (items, st') →
      (∀ url', url' ≠ url → mapGet st'.feeds url' = mapGet st.feeds url') ∧
      ∀ feed, net url = .ok feed → mapGet st'.feeds url = some feed := by
  intro net st url marker items st' h
  cases hnet : net url with
  | error e =>
    rw [podcastCheckForUpdates_eq, podcastFetchUpdatesSince, refreshFeed] at h
    simp only [hnet] at h
    exact Except.noConfusion h
  | ok feed =>
    rw [podcastCheckForUpdates_ok net st url marker feed hnet] at h
    have hst : (⟨mapSet st.feeds url feed⟩ : PodcastState) = st' :=
      ((Prod.mk.injEq _ _ _ _).mp (Except.ok.inj h)).2
    rw [← hst]
    constructor
    · intro url' hne
      exact mapGet_mapSet_ne st.feeds url url' feed hne
    · intro feed' hfeed'
      have hf : feed = feed' := Except.ok.inj hfeed'
      rw [← hf]
      exact mapGet_mapSet_self st.feeds url feed

/-- A second stored feed used to exhibit the frame property. -/
def exFeedOther : PodcastFeed :=
  { url := "https://other.com/feed.xml", title := "Other Podcast", description := none,
    imageUrl := none, episodes := [] }

/-- The full three-episode result, oldest first. -/
def exItemsAll : List MediaItem :=
  [mapEpisode (exEpisode "ep-1" "2024-07-01T12:00:00.000Z") exFeed,
   mapEpisode (exEpisode "ep-2" "2024-07-02T12:00:00.000Z") exFeed,
   mapEpisode (exEpisode "ep-3" "2024-07-03T12:00:00.000Z") exFeed]

/-- C9 witness: refreshing `example.com` leaves the `other.com` entry
untouched. -/
theorem C9_witness :
    mapGet (mapSet [("https://other.com/feed.xml", exFeedOther)]
        "https://example.com/feed.xml" exFeed) "https://other.com/feed.xml" =
      mapGet [("https://other.com/feed.xml", exFeedOther)] "https://other.com/feed.xml" :=
  (C9_refresh_frame exNet ⟨[("https://other.com/feed.xml", exFeedOther)]⟩
      "https://example.com/feed.xml" "zzz" exItemsAll
      ⟨mapSet [("https://other.com/feed.xml", exFeedOther)]
        "https://example.com/feed.xml" exFeed⟩ (by decide)).1
    "https://other.com/feed.xml" (by decide)

/-- A cursor that is a non-empty non-numeric string makes the slice empty
and `hasMore` false. -/
theorem paginateSlice_nan {α : Type} (l : List α) (defL : Int) (limit : Option Int)
    (s : String) (hs : s ≠ "") (hn : jsParseInt s = .nan) :
    paginateSlice l defL (some ⟨limit, some s⟩) = ([], none) := by
  rw [paginateSlice]
  simp only [Option.bind, if_neg hs, hn]
  simp [jsSlice, jsSliceIdx, JsNum.add, JsNum.ltB]

/-- C10 counterexample: the empty cursor string does not parse as a decimal
integer, yet (being falsy) it is treated as *no* cursor: the call returns
the full first page, not an empty item list. -/
theorem C10_counterexample :
    jsParseInt "" = .nan ∧
    (podcastGetAvailableMedia ⟨[("https://example.com/feed.xml", exFeed)]⟩
        (some ⟨none, some ""⟩)).items = [mapFeedToCollection exFeed] := by
  refine ⟨by decide, by decide⟩

/-- C10 as amended: for every *non-empty* cursor string that does not parse
as a decimal integer (`parseInt` gives `NaN`), both listing operations
return normally with an empty item list and `nextCursor` absent; the empty
cursor string is falsy and is treated exactly like an absent cursor. -/
theorem C10_amended :
    (∀ (st : PodcastState) (limit : Option Int) (s : String),
      s ≠ "" → jsParseInt s = .nan →
      (podcastGetAvailableMedia st (some ⟨limit, some s⟩)).items = [] ∧
      (podcastGetAvailableMedia st (some ⟨limit, some s⟩)).nextCursor = none) ∧
    (∀ (net : PodcastNet) (st : PodcastState) (cid : String) (feed : PodcastFeed)
        (limit : Option Int) (s : String),
      mapGet st.feeds cid = some feed → s ≠ "" → jsParseInt s = .nan →
      podcastGetCollectionItems net st cid (some ⟨limit, some s⟩) =
        .ok (⟨[], none, some (feed.episodes.length : Int)⟩, st)) ∧
    ∀ (st : PodcastState) (limit : Option Int),
      podcastGetAvailableMedia st (some ⟨limit, some ""⟩) =
        podcastGetAvailableMedia st (some ⟨limit, none⟩) := by
  refine ⟨?_, ?_, ?_⟩
  · intro st limit s hs hn
    constructor
    · simp [podcastGetAvailableMedia, paginateSlice_nan _ _ limit s hs hn]
    · simp [podcastGetAvailableMedia, paginateSlice_nan _ _ limit s hs hn]
  · intro net st cid feed limit s hf hs hn
    rw [podcastGetCollectionItems]
    simp only [hf]
    have hpage : podcastEpisodePage feed (some ⟨limit, some s⟩) =
        ⟨[], none, some (feed.episodes.length : Int)⟩ := by
      simp [podcastEpisodePage, paginateSlice_nan _ _ limit s hs hn]
    rw [hpage]
  · intro st limit
    rfl

/-- C10 witness: the amended statement evaluated on a one-feed state with
the malformed cursor `"abc"`. -/
theorem C10_witness :
    (podcastGetAvailableMedia ⟨[("https://example.com/feed.xml", exFeed)]⟩
        (some ⟨none, some "abc"⟩)).items = [] :=
  (C10_amended.1 ⟨[("https://example.com/feed.xml", exFeed)]⟩ none "abc"
    (by decide) (by decide)).1

/-- C8: for `PodcastSource`'s listing operations over any stored feed
state and any positive per-call limit, following `nextCursor` from a
cursorless start concatenates (within `total + 1` pages — the walk in fact
reaches a cursorless final page, which is what `followPages` returning
`some` encodes) to exactly the items of one call with `limit = total`, and
that single total call has `nextCursor` absent. -/
theorem C8_pagination :
    ∀ (st : PodcastState) (lim : Nat), 0 < lim →
      (followPages (fun cur => podcastGetAvailableMedia st (some ⟨some (lim : Int), cur⟩))
          ((st.feeds.map (fun p => p.2)).length + 1) none =
        some ((podcastGetAvailableMedia st
            (some ⟨some (((st.feeds.map (fun p => p.2)).length : Nat) : Int), none⟩)).items) ∧
       (podcastGetAvailableMedia st
          (some ⟨some (((st.feeds.map (fun p => p.2)).length : Nat) : Int), none⟩)).nextCursor =
        none) ∧
      ∀ (net : PodcastNet) (cid : String) (feed : PodcastFeed),
        mapGet st.feeds cid = some feed →
        (∀ options, podcastGetCollectionItems net st cid options =
          .ok (podcastEpisodePage feed options, st)) ∧
        followPages (fun cur => podcastEpisodePage feed (some ⟨some (lim : Int), cur⟩))
            (feed.episodes.length + 1) none =
          some ((podcastEpisodePage feed
              (some ⟨some ((feed.episodes.length : Nat) : Int), none⟩)).items) ∧
        (podcastEpisodePage feed
            (some ⟨some ((feed.episodes.length : Nat) : Int), none⟩)).nextCursor = none := by
  intro st lim hlim
  constructor
  · have hfollow := followPages_paginate (st.feeds.map (fun p : String × PodcastFeed => p.2))
      mapFeedToCollection ((st.feeds.map (fun p : String × PodcastFeed => p.2)).length : Int)
      (fun cur => podcastGetAvailableMedia st (some ⟨some (lim : Int), cur⟩)) lim hlim
      (fun _ => ⟨rfl, rfl⟩) (st.feeds.map (fun p : String × PodcastFeed => p.2)).length 0 none
      (by simpa using
        Nat.le_mul_of_pos_right (st.feeds.map (fun p : String × PodcastFeed => p.2)).length hlim)
      (Or.inl ⟨rfl, rfl⟩)
    have htot := paginateSlice_total (st.feeds.map (fun p : String × PodcastFeed => p.2))
      ((st.feeds.map (fun p : String × PodcastFeed => p.2)).length : Int)
    have hitems : (podcastGetAvailableMedia st
        (some ⟨some (((st.feeds.map (fun p => p.2)).length : Nat) : Int), none⟩)).items =
        (paginateSlice (st.feeds.map (fun p : String × PodcastFeed => p.2))
          ((st.feeds.map (fun p : String × PodcastFeed => p.2)).length : Int)
          (some ⟨some (((st.feeds.map (fun p => p.2)).length : Nat) : Int), none⟩)).1.map
          mapFeedToCollection := rfl
    have hnext : (podcastGetAvailableMedia st
        (some ⟨some (((st.feeds.map (fun p => p.2)).length : Nat) : Int), none⟩)).nextCursor =
        (paginateSlice (st.feeds.map (fun p : String × PodcastFeed => p.2))
          ((st.feeds.map (fun p : String × PodcastFeed => p.2)).length : Int)
          (some ⟨some (((st.feeds.map (fun p => p.2)).length : Nat) : Int), none⟩)).2 := rfl
    constructor
    · rw [hfollow, List.drop_zero, hitems, htot]
    · rw [hnext, htot]
  · intro net cid feed hf
    refine ⟨?_, ?_, ?_⟩
    · intro options
      rw [podcastGetCollectionItems]
      simp only [hf]
    · have hfollow := followPages_paginate feed.episodes (fun ep => mapEpisode ep feed) 20
        (fun cur => podcastEpisodePage feed (some ⟨some (lim : Int), cur⟩)) lim hlim
        (fun _ => ⟨rfl, rfl⟩) feed.episodes.length 0 none
        (by simpa using Nat.le_mul_of_pos_right feed.episodes.length hlim)
        (Or.inl ⟨rfl, rfl⟩)
      have htot := paginateSlice_total feed.episodes (20 : Int)
      have hitems : (podcastEpisodePage feed
          (some ⟨some ((feed.episodes.length : Nat) : Int), none⟩)).items =
          (paginateSlice feed.episodes (20 : Int)
            (some ⟨some ((feed.episodes.length : Nat) : Int), none⟩)).1.map
            (fun ep => mapEpisode ep feed) := rfl
      rw [hfollow, List.drop_zero, hitems, htot]
    · have htot := paginateSlice_total feed.episodes (20 : Int)
      have hnext : (podcastEpisodePage feed
          (some ⟨some ((feed.episodes.length : Nat) : Int), none⟩)).nextCursor =
          (paginateSlice feed.episodes (20 : Int)
            (some ⟨some ((feed.episodes.length : Nat) : Int), none⟩)).2 := rfl
      rw [hnext, htot]

/-- C8 witness: the pagination property evaluated on the three-episode feed
with per-call limit 2. -/
theorem C8_witness :
    followPages (fun cur => podcastEpisodePage exFeed (some ⟨some (2 : Int), cur⟩))
        (3 + 1) none =
      some ((podcastEpisodePage exFeed (some ⟨some (3 : Int), none⟩)).items) :=
  ((C8_pagination ⟨[("https://example.com/feed.xml", exFeed)]⟩ 2 (by decide)).2
    exNet "https://example.com/feed.xml" exFeed (by decide)).2.1

end PersonalMedia
